import Mathlib

/-!
Verification development for the ncdex-scheduler-utility repository.

The repository is a Node.js incremental-sync pipeline.  This file gives a
shallow embedding of the components the claims are about:

* JavaScript values and objects (`JVal`, `JRecord`), with JS truthiness;
* the field transformer `transformSugarcrmToPortal` and its helper
  `validateTransformedRecord` (src/utils/fieldTransformer.js);
* the sync-record (checkpoint) store `getSyncRecord` / `updateSyncRecord`
  (src/utils/syncTracker.js) and the `manageSync reset` command;
* the paginated fetcher `fetchAllRecords` (src/utils/sugarCRM.js);
* the integration logger `logIntegration` (src/utils/integrationLogger.js);
* the three sync tasks `SugarImportCasesToPortalCases`,
  `SugarCRMAccountToPortalMember` and `sugarAuditorToPortalAuditor`.

Asynchronous I/O collaborators (the SugarCRM HTTP API, the Portal API and the
PostgreSQL pool) are modelled as explicit oracles passed to the embedded
functions; wall-clock timestamps are passed as parameters.  Code that throws
is modelled with `Except String`.
-/

deriving instance DecidableEq for Except

/-- A JavaScript value as used by the sync pipeline: `null`, `undefined`,
strings, (integer) numbers and booleans. -/
inductive JVal where
  | jnull
  | jundef
  | jstr (s : String)
  | jnum (n : Int)
  | jbool (b : Bool)
deriving DecidableEq

/-- A JavaScript object, as an ordered association list of fields. -/
abbrev JRecord := List (String × JVal)

/-- JS truthiness of a value. -/
def JVal.truthy : JVal → Bool
  | .jnull => false
  | .jundef => false
  | .jstr s => s ≠ ""
  | .jnum n => n ≠ 0
  | .jbool b => b

/-- JS `.toString()` / string coercion of a value. -/
def JVal.toStr : JVal → String
  | .jnull => "null"
  | .jundef => "undefined"
  | .jstr s => s
  | .jnum n => toString n
  | .jbool b => if b then "true" else "false"

/-- Truthiness of a possibly-absent value (an absent field is `undefined`,
hence falsy). -/
def truthyOpt : Option JVal → Bool
  | none => false
  | some v => v.truthy

/-- Property read `record[field]`: `none` when the field is absent. -/
def getField : JRecord → String → Option JVal
  | [], _ => none
  | (k, v) :: r, f => if k = f then some v else getField r f

/-- Whether the object has a field of this name. -/
def hasField : JRecord → String → Bool
  | [], _ => false
  | (k, _) :: r, f => k = f || hasField r f

/-- Property write `record[field] = v`: replaces the existing binding
(keeping its position, as JS objects do) or appends a new one. -/
def setField : JRecord → String → JVal → JRecord
  | [], f, v => [(f, v)]
  | (k, w) :: r, f, v => if k = f then (f, v) :: r else (k, w) :: setField r f v

/-- The check on fieldTransformer.js line 76:
`transformedValue !== null && transformedValue !== undefined &&
transformedValue !== ''` (an absent source value is `undefined`).
Note `0` and `false` pass this check: `!==` is strict. -/
def presentNonEmpty : Option JVal → Bool
  | none => false
  | some .jnull => false
  | some .jundef => false
  | some (.jstr s) => s ≠ ""
  | some (.jnum _) => true
  | some (.jbool _) => true

/-- One entry of `field_mappings`: destination field name, required flag and
transform kind. -/
structure FieldMapConfig where
  portal_field : String
  required : Bool
  transform : String
deriving DecidableEq

/-- One entry of `computed_fields`. -/
structure ComputedConfig where
  portal_field : String
  transform : String
deriving DecidableEq

/-- `validation_rules` of a field mapping.  `email_validation` and
`phone_validation` hold the JS truthiness of those configuration entries. -/
structure ValidationRules where
  required_fields : Option (List String)
  email_validation : Bool
  phone_validation : Bool
deriving DecidableEq

/-- A loaded field-mapping configuration (one value of fieldMappings.json). -/
structure Mapping where
  field_mappings : List (String × FieldMapConfig)
  default_values : Option (List (String × JVal))
  computed_fields : Option (List (String × ComputedConfig))
  validation_rules : Option ValidationRules
deriving DecidableEq

/-- The result object returned by `transformSugarcrmToPortal`. -/
structure TransformationResult where
  data : JRecord
  isValid : Bool
  validationErrors : List String
  mapping : Mapping
deriving DecidableEq

/-- The `switch (mappingConfig.transform)` of fieldTransformer.js lines 58-73.
For the case kinds the value is stringified only when truthy
(`value ? value.toString().toUpperCase() : value`). -/
def applyTransformKind (kind : String) (value : Option JVal) : Option JVal :=
  match kind with
  | "direct" => value
  | "uppercase" =>
    if truthyOpt value then some (.jstr ((value.getD .jundef).toStr.toUpper)) else value
  | "lowercase" =>
    if truthyOpt value then some (.jstr ((value.getD .jundef).toStr.toLower)) else value
  | "trim" =>
    if truthyOpt value then some (.jstr ((value.getD .jundef).toStr.trim)) else value
  | _ => value

/-- Step 1 of the transform (fieldTransformer.js lines 46-79): the loop over
`field_mappings`, accumulating the output record and the validation errors. -/
def step1List (recd : JRecord) :
    List (String × FieldMapConfig) → JRecord → List String → JRecord × List String
  | [], tr, errs => (tr, errs)
  | (src, cfg) :: fms, tr, errs =>
    let value := getField recd src
    if cfg.required && !(truthyOpt value) then
      step1List recd fms tr (errs ++ ["Missing required field: " ++ src])
    else
      let tv := applyTransformKind cfg.transform value
      if presentNonEmpty tv then
        step1List recd fms (setField tr cfg.portal_field (tv.getD .jundef)) errs
      else
        step1List recd fms tr errs

/-- Step 2 (lines 81-88): apply `default_values` to fields whose current value
is falsy (`if (!transformedRecord[field])`). -/
def applyDefaultsList : List (String × JVal) → JRecord → JRecord
  | [], tr => tr
  | (f, v) :: ds, tr =>
    if truthyOpt (getField tr f) then applyDefaultsList ds tr
    else applyDefaultsList ds (setField tr f v)

/-- The `switch (config.transform)` of the computed-field step (lines
95-107).  `none` models the JS `null` of the default case; note that
`copy_from_name` with an absent `name` yields `undefined` (which is
`!== null`, so the field is still written). -/
def computedValueOf (now today : String) (tr : JRecord) (cfg : ComputedConfig) : Option JVal :=
  match cfg.transform with
  | "timestamp" => some (.jstr now)
  | "copy_from_name" => some ((getField tr "name").getD .jundef)
  | "current_date" => some (.jstr today)
  | _ => none

/-- Step 3 (lines 90-113): computed fields. -/
def applyComputedList (now today : String) :
    List (String × ComputedConfig) → JRecord → JRecord
  | [], tr => tr
  | (_, cfg) :: cs, tr =>
    match computedValueOf now today tr cfg with
    | some v => applyComputedList now today cs (setField tr cfg.portal_field v)
    | none => applyComputedList now today cs tr

/-- The `required_fields` part of `validateTransformedRecord`
(lines 139-146): returns the validity flag and the errors it appends. -/
def checkRequired (fields : List String) (r : JRecord) : Bool × List String :=
  match fields with
  | [] => (true, [])
  | f :: fs =>
    let rest := checkRequired fs r
    if truthyOpt (getField r f) then rest
    else (false, ("Missing required field: " ++ f) :: rest.2)

/-- The JS whitespace class `\s` (ASCII part). -/
def jsWhitespace (c : Char) : Bool :=
  c = ' ' || c = '\t' || c = '\n' || c = '\r' || c = '\x0b' || c = '\x0c'

/-- A character allowed by `[^\s@]` in the e-mail regex. -/
def emailChar (c : Char) : Bool := !(jsWhitespace c) && c ≠ '@'

/-- `/^[^\s@]+@[^\s@]+\.[^\s@]+$/` — a match exists iff the string has exactly
one `@`, a non-empty all-`emailChar` local part, and a domain whose characters
are all `emailChar` and which has a dot that is neither first nor last. -/
def emailMatches (s : String) : Bool :=
  match s.splitOn "@" with
  | [local_part, domain] =>
    local_part ≠ "" && local_part.data.all emailChar && domain.data.all emailChar &&
      ((domain.data.drop 1).dropLast.contains '.')
  | _ => false

/-- The `email` part of `validateTransformedRecord` (lines 149-156).  The
`typeof record.email === 'object'` branch is unreachable for our value type
(only `null` has typeof `object`, and it is excluded by the truthiness
guard), so the value is string-coerced by `emailRegex.test`. -/
def checkEmail (rules : ValidationRules) (r : JRecord) : Bool × List String :=
  if rules.email_validation && truthyOpt (getField r "email") then
    let emailString := ((getField r "email").getD .jundef).toStr
    if emailMatches emailString then (true, [])
    else (false, ["Invalid email format: " ++ emailString])
  else (true, [])

/-- Strip `[\s\-\(\)]` as the phone check does before matching. -/
def stripPhoneChars (s : String) : String :=
  ⟨s.data.filter (fun c => !(jsWhitespace c || c = '-' || c = '(' || c = ')'))⟩

/-- `/^[\+]?[1-9][\d]{0,15}$/`. -/
def phoneMatches (s : String) : Bool :=
  let cs := match s.data with
    | '+' :: rest => rest
    | cs => cs
  match cs with
  | [] => false
  | c :: rest => c.isDigit && c ≠ '0' && rest.all Char.isDigit && rest.length ≤ 15

/-- The `phone` part of `validateTransformedRecord` (lines 159-165).
`record.phone.replace(...)` throws a TypeError when the (truthy) phone value
is not a string; that exception propagates out of the transform. -/
def checkPhone (rules : ValidationRules) (r : JRecord) : Except String (Bool × List String) :=
  if rules.phone_validation && truthyOpt (getField r "phone") then
    match getField r "phone" with
    | some (.jstr s) =>
      if phoneMatches (stripPhoneChars s) then .ok (true, [])
      else .ok (false, ["Invalid phone format: " ++ s])
    | _ => .error "TypeError: record.phone.replace is not a function"
  else .ok (true, [])

/-- `validateTransformedRecord(record, validationRules, existingErrors)`
(fieldTransformer.js lines 135-168): returns the validity flag and the list
of errors it appends to `existingErrors`.  Note the flag starts at `true` and
is set to `false` only by the three rule checks — the pre-existing errors of
step 1 are never consulted. -/
def validateTransformedRecord (r : JRecord) (rules : ValidationRules) :
    Except String (Bool × List String) :=
  let req := match rules.required_fields with
    | some fs => checkRequired fs r
    | none => (true, [])
  let em := checkEmail rules r
  match checkPhone rules r with
  | .error e => .error e
  | .ok ph => .ok (req.1 && em.1 && ph.1, req.2 ++ em.2 ++ ph.2)

/-- The destination record assembled by steps 1-3 of the transform (field
mappings, then default values, then computed fields). -/
def assembleRecord (mapping : Mapping) (recd : JRecord) (now today : String) : JRecord :=
  let tr2 := match mapping.default_values with
    | some ds => applyDefaultsList ds (step1List recd mapping.field_mappings [] []).1
    | none => (step1List recd mapping.field_mappings [] []).1
  match mapping.computed_fields with
  | some cs => applyComputedList now today cs tr2
  | none => tr2

/-- `transformSugarcrmToPortal(sugarcrmRecord, mappingType)`
(fieldTransformer.js lines 40-126), with the loaded mapping and the two
wall-clock strings (`new Date().toISOString()` and its date part) passed as
parameters.  The JS function can throw (phone validation on a non-string
value), hence the `Except`.  Note lines 116-118: `isValid` comes only from
`validateTransformedRecord` (or is `true` when there are no
`validation_rules`); the step-1 errors are carried in `validationErrors` but
do not influence `isValid`. -/
def transformSugarcrmToPortal (mapping : Mapping) (recd : JRecord) (now today : String) :
    Except String TransformationResult :=
  match mapping.validation_rules with
  | none =>
    .ok ⟨assembleRecord mapping recd now today, true,
      (step1List recd mapping.field_mappings [] []).2, mapping⟩
  | some rules =>
    match validateTransformedRecord (assembleRecord mapping recd now today) rules with
    | .error e => .error e
    | .ok vr =>
      .ok ⟨assembleRecord mapping recd now today, vr.1,
        (step1List recd mapping.field_mappings [] []).2 ++ vr.2, mapping⟩

/-! ### Association-list lemmas -/

theorem getField_setField_self (r : JRecord) (k : String) (v : JVal) :
    getField (setField r k v) k = some v := by
  induction r with
  | nil => simp [setField, getField]
  | cons p r ih =>
    obtain ⟨k', v'⟩ := p
    by_cases h : k' = k <;> simp [setField, getField, h, ih]

theorem getField_setField_ne (r : JRecord) (k k' : String) (v : JVal) (h : k' ≠ k) :
    getField (setField r k v) k' = getField r k' := by
  induction r with
  | nil => simp [setField, getField, h, Ne.symm h]
  | cons p r ih =>
    obtain ⟨k₀, v₀⟩ := p
    by_cases hk : k₀ = k
    · subst hk
      simp [setField, getField, Ne.symm h, h]
    · simp [setField, getField, hk, ih]

/-! ### Lemmas about the transformer -/

theorem checkRequired_fst_iff (fs : List String) (r : JRecord) :
    (checkRequired fs r).1 = true ↔ (checkRequired fs r).2 = [] := by
  induction fs with
  | nil => simp [checkRequired]
  | cons f fs ih =>
    by_cases h : truthyOpt (getField r f) <;> simp [checkRequired, h, ih]

theorem checkEmail_fst_iff (rules : ValidationRules) (r : JRecord) :
    (checkEmail rules r).1 = true ↔ (checkEmail rules r).2 = [] := by
  unfold checkEmail
  by_cases h : rules.email_validation && truthyOpt (getField r "email")
  · by_cases he : emailMatches (((getField r "email").getD .jundef).toStr) <;> simp [h, he]
  · simp [h]

theorem checkPhone_fst_iff (rules : ValidationRules) (r : JRecord) (p : Bool × List String)
    (h : checkPhone rules r = .ok p) : p.1 = true ↔ p.2 = [] := by
  unfold checkPhone at h
  by_cases hg : rules.phone_validation && truthyOpt (getField r "phone")
  · rw [if_pos hg] at h
    match hv : getField r "phone" with
    | some (.jstr s) =>
      rw [hv] at h
      by_cases hm : phoneMatches (stripPhoneChars s) <;> simp [hm] at h <;> simp [← h]
    | none | some .jnull | some .jundef | some (.jnum _) | some (.jbool _) =>
      rw [hv] at h
      exact absurd h (by simp)
  · rw [if_neg hg] at h
    simp at h
    simp [← h]

theorem validateTransformedRecord_fst_iff (r : JRecord) (rules : ValidationRules)
    (p : Bool × List String) (h : validateTransformedRecord r rules = .ok p) :
    p.1 = true ↔ p.2 = [] := by
  unfold validateTransformedRecord at h
  match hp : checkPhone rules r with
  | .error e => rw [hp] at h; exact absurd h (by simp)
  | .ok ph =>
    rw [hp] at h
    simp only [Except.ok.injEq] at h
    have hreq : ((match rules.required_fields with
        | some fs => checkRequired fs r
        | none => (true, [])) : Bool × List String).1 = true ↔
        (match rules.required_fields with
        | some fs => checkRequired fs r
        | none => (true, [])).2 = [] := by
      match rules.required_fields with
      | some fs => exact checkRequired_fst_iff fs r
      | none => simp
    have hem := checkEmail_fst_iff rules r
    have hph := checkPhone_fst_iff rules r ph hp
    rw [← h]
    simp only [Bool.and_eq_true, List.append_eq_nil]
    constructor
    · rintro ⟨⟨h1, h2⟩, h3⟩
      exact ⟨⟨hreq.mp h1, hem.mp h2⟩, hph.mp h3⟩
    · rintro ⟨⟨h1, h2⟩, h3⟩
      exact ⟨⟨hreq.mpr h1, hem.mpr h2⟩, hph.mpr h3⟩

/-! ### C1: `isValid` versus `validationErrors` -/

/-- Concrete mapping for the C1 counterexample: one required source field,
no `validation_rules`. -/
def c1Mapping : Mapping := ⟨[("a", ⟨"x", true, "direct"⟩)], none, none, none⟩

/-- The result the transform produces on the empty record under
`c1Mapping`. -/
def c1Result : TransformationResult :=
  ⟨[], true, ["Missing required field: a"], c1Mapping⟩

/-- C1, counterexample.  The claim says `isValid = true` iff no validation
error was appended, and in particular that a non-empty `validationErrors`
(even from step-1 field mapping alone) forces `isValid = false`.  With a
required source field missing and no `validation_rules`, the transform
appends a step-1 error yet returns `isValid = true`. -/
theorem transform_c1_counterexample :
    transformSugarcrmToPortal c1Mapping [] "t" "d" = .ok c1Result
    ∧ c1Result.validationErrors ≠ []
    ∧ c1Result.isValid = true := by
  refine ⟨by decide, by decide, by decide⟩

/-- C1, amended.  `isValid` reflects only the step-4 rule re-validation: the
returned `validationErrors` are the step-1 errors followed by the rule
errors, and `isValid = true` exactly when the rule re-validation appended no
error (so `validationErrors = []` still implies `isValid = true`, but step-1
errors alone leave `isValid = true`). -/
theorem transform_isValid_iff_ruleErrors (m : Mapping) (recd : JRecord) (now today : String)
    (res : TransformationResult)
    (h : transformSugarcrmToPortal m recd now today = .ok res) :
    (∃ ruleErrs, res.validationErrors = (step1List recd m.field_mappings [] []).2 ++ ruleErrs
        ∧ (res.isValid = true ↔ ruleErrs = []))
    ∧ (res.validationErrors = [] → res.isValid = true) := by
  unfold transformSugarcrmToPortal at h
  cases hvr : m.validation_rules with
  | none =>
    simp only [hvr, Except.ok.injEq] at h
    subst h
    exact ⟨⟨[], by simp⟩, fun _ => rfl⟩
  | some rules =>
    simp only [hvr] at h
    cases hv : validateTransformedRecord (assembleRecord m recd now today) rules with
    | error e =>
      simp only [hv] at h
      exact absurd h (by simp)
    | ok vr =>
      simp only [hv, Except.ok.injEq] at h
      subst h
      have hiff := validateTransformedRecord_fst_iff _ rules vr hv
      refine ⟨⟨vr.2, rfl, hiff⟩, fun hnil => ?_⟩
      have : vr.2 = [] := (List.append_eq_nil.mp hnil).2
      exact hiff.mpr this

/-- Witness for the amended C1 theorem at the concrete counterexample
input. -/
theorem transform_isValid_iff_ruleErrors_witness :
    transformSugarcrmToPortal c1Mapping [("z", .jstr "v")] "t" "d"
        = .ok ⟨[], true, ["Missing required field: a"], c1Mapping⟩
    ∧ ((∃ ruleErrs,
          (TransformationResult.validationErrors
              ⟨[], true, ["Missing required field: a"], c1Mapping⟩)
            = (step1List [("z", .jstr "v")] c1Mapping.field_mappings [] []).2 ++ ruleErrs
          ∧ ((TransformationResult.isValid
                ⟨[], true, ["Missing required field: a"], c1Mapping⟩) = true
              ↔ ruleErrs = []))
        ∧ ((TransformationResult.validationErrors
              ⟨[], true, ["Missing required field: a"], c1Mapping⟩) = []
            → (TransformationResult.isValid
                ⟨[], true, ["Missing required field: a"], c1Mapping⟩) = true)) :=
  ⟨by decide,
   transform_isValid_iff_ruleErrors c1Mapping [("z", .jstr "v")] "t" "d" _ (by decide)⟩


/-! ### C5: required source field missing -/

theorem step1List_errs_prefix (recd : JRecord) (fms : List (String × FieldMapConfig))
    (tr : JRecord) (errs : List String) :
    ∃ rest, (step1List recd fms tr errs).2 = errs ++ rest := by
  induction fms generalizing tr errs with
  | nil => exact ⟨[], by simp [step1List]⟩
  | cons p fms ih =>
    obtain ⟨src, cfg⟩ := p
    by_cases hc : (cfg.required && !(truthyOpt (getField recd src))) = true
    · obtain ⟨rest, hrest⟩ := ih tr (errs ++ ["Missing required field: " ++ src])
      refine ⟨("Missing required field: " ++ src) :: rest, ?_⟩
      simp [step1List, hc, hrest]
    · by_cases hp : presentNonEmpty (applyTransformKind cfg.transform (getField recd src)) = true
      · obtain ⟨rest, hrest⟩ := ih
          (setField tr cfg.portal_field
            ((applyTransformKind cfg.transform (getField recd src)).getD .jundef)) errs
        exact ⟨rest, by simp [step1List, hc, hp, hrest]⟩
      · obtain ⟨rest, hrest⟩ := ih tr errs
        exact ⟨rest, by simp [step1List, hc, hp, hrest]⟩

theorem step1List_missing_mem (recd : JRecord) (src : String) (cfg : FieldMapConfig)
    (fms : List (String × FieldMapConfig))
    (hmem : (src, cfg) ∈ fms) (hreq : cfg.required = true)
    (hval : truthyOpt (getField recd src) = false) :
    ∀ tr errs, ("Missing required field: " ++ src) ∈ (step1List recd fms tr errs).2 := by
  induction fms with
  | nil => cases hmem
  | cons p fms ih =>
    intro tr errs
    rcases List.mem_cons.mp hmem with heq | htail
    · subst heq
      have hc : (cfg.required && !(truthyOpt (getField recd src))) = true := by
        rw [hreq, hval]; rfl
      obtain ⟨rest, hrest⟩ := step1List_errs_prefix recd fms tr
        (errs ++ ["Missing required field: " ++ src])
      simp [step1List, hc, hrest]
    · obtain ⟨src', cfg'⟩ := p
      by_cases hc : (cfg'.required && !(truthyOpt (getField recd src'))) = true
      · simpa [step1List, hc] using ih htail _ _
      · by_cases hp : presentNonEmpty (applyTransformKind cfg'.transform (getField recd src')) = true
        · simpa [step1List, hc, hp] using ih htail _ _
        · simpa [step1List, hc, hp] using ih htail _ _

theorem step1List_unset (recd : JRecord) (pf : String)
    (fms : List (String × FieldMapConfig))
    (hall : ∀ s c, (s, c) ∈ fms → c.portal_field = pf →
      c.required = true ∧ truthyOpt (getField recd s) = false) :
    ∀ tr errs, getField tr pf = none → getField (step1List recd fms tr errs).1 pf = none := by
  induction fms with
  | nil =>
    intro tr errs htr
    simpa [step1List] using htr
  | cons p fms ih =>
    intro tr errs htr
    obtain ⟨src, cfg⟩ := p
    have hall' : ∀ s c, (s, c) ∈ fms → c.portal_field = pf →
        c.required = true ∧ truthyOpt (getField recd s) = false :=
      fun s c hm => hall s c (List.mem_cons_of_mem _ hm)
    by_cases hc : (cfg.required && !(truthyOpt (getField recd src))) = true
    · simpa [step1List, hc] using ih hall' tr _ htr
    · by_cases hp : presentNonEmpty (applyTransformKind cfg.transform (getField recd src)) = true
      · have hne : cfg.portal_field ≠ pf := by
          intro hEq
          obtain ⟨h1, h2⟩ := hall src cfg (List.mem_cons_self _ _) hEq
          rw [h1, h2] at hc
          simp at hc
        have hset : getField
            (setField tr cfg.portal_field
              ((applyTransformKind cfg.transform (getField recd src)).getD .jundef)) pf = none := by
          rw [getField_setField_ne _ _ _ _ (Ne.symm hne)]
          exact htr
        simpa [step1List, hc, hp] using ih hall' _ _ hset
      · simpa [step1List, hc, hp] using ih hall' tr _ htr

theorem applyDefaultsList_not_mem (ds : List (String × JVal)) (pf : String)
    (hnm : pf ∉ ds.map Prod.fst) :
    ∀ tr, getField (applyDefaultsList ds tr) pf = getField tr pf := by
  induction ds with
  | nil => intro tr; rfl
  | cons d ds ih =>
    intro tr
    obtain ⟨f, v⟩ := d
    have hf : f ≠ pf := by
      intro hEq
      exact hnm (by simp [hEq])
    have hnm' : pf ∉ ds.map Prod.fst := fun hm => hnm (by simp [hm])
    by_cases ht : truthyOpt (getField tr f) = true
    · simpa [applyDefaultsList, ht] using ih hnm' tr
    · have hset : getField (setField tr f v) pf = getField tr pf :=
        getField_setField_ne _ _ _ _ (Ne.symm hf)
      have := ih hnm' (setField tr f v)
      rw [hset] at this
      simpa [applyDefaultsList, ht] using this

theorem applyComputedList_not_target (now today : String)
    (cs : List (String × ComputedConfig)) (pf : String)
    (hnt : ∀ k c, (k, c) ∈ cs → c.portal_field ≠ pf) :
    ∀ tr, getField (applyComputedList now today cs tr) pf = getField tr pf := by
  induction cs with
  | nil => intro tr; rfl
  | cons p cs ih =>
    intro tr
    obtain ⟨k, cfg⟩ := p
    have hnt' : ∀ k c, (k, c) ∈ cs → c.portal_field ≠ pf :=
      fun k c hm => hnt k c (List.mem_cons_of_mem _ hm)
    have hne : cfg.portal_field ≠ pf := hnt k cfg (List.mem_cons_self _ _)
    cases hcv : computedValueOf now today tr cfg with
    | some v =>
      have hset : getField (setField tr cfg.portal_field v) pf = getField tr pf :=
        getField_setField_ne _ _ _ _ (Ne.symm hne)
      have := ih hnt' (setField tr cfg.portal_field v)
      rw [hset] at this
      simpa [applyComputedList, hcv] using this
    | none =>
      simpa [applyComputedList, hcv] using ih hnt' tr

theorem checkRequired_false_of_mem (fs : List String) (r : JRecord) (f : String)
    (hmem : f ∈ fs) (hval : truthyOpt (getField r f) = false) :
    (checkRequired fs r).1 = false := by
  induction fs with
  | nil => cases hmem
  | cons g fs ih =>
    rcases List.mem_cons.mp hmem with heq | htail
    · subst heq
      simp [checkRequired, hval]
    · by_cases hg : truthyOpt (getField r g) = true <;> simp [checkRequired, hg, ih htail]

/-- The destination field of a required-missing source field stays unset
through steps 1-3, provided no other mapping entry, default or computed
field writes it. -/
theorem assembleRecord_unset (m : Mapping) (recd : JRecord) (pf : String)
    (now today : String)
    (hall : ∀ s c, (s, c) ∈ m.field_mappings → c.portal_field = pf →
      c.required = true ∧ truthyOpt (getField recd s) = false)
    (hdef : ∀ ds, m.default_values = some ds → pf ∉ ds.map Prod.fst)
    (hcomp : ∀ cs, m.computed_fields = some cs → ∀ k c, (k, c) ∈ cs → c.portal_field ≠ pf) :
    getField (assembleRecord m recd now today) pf = none := by
  have h1 : getField (step1List recd m.field_mappings [] []).1 pf = none :=
    step1List_unset recd pf m.field_mappings hall [] [] rfl
  unfold assembleRecord
  cases hds : m.default_values with
  | none =>
    cases hcs : m.computed_fields with
    | none => simpa using h1
    | some cs =>
      simpa using (applyComputedList_not_target now today cs pf (hcomp cs hcs) _).trans h1
  | some ds =>
    have h2 : getField (applyDefaultsList ds (step1List recd m.field_mappings [] []).1) pf
        = none := (applyDefaultsList_not_mem ds pf (hdef ds hds) _).trans h1
    cases hcs : m.computed_fields with
    | none => simpa using h2
    | some cs =>
      simpa using (applyComputedList_not_target now today cs pf (hcomp cs hcs) _).trans h2

/-- Concrete mapping for the C5 counterexample: one required source field,
no `validation_rules`. -/
def c5Mapping : Mapping := ⟨[("b", ⟨"y", true, "direct"⟩)], none, none, none⟩

/-- The result the transform produces on `[("z","v")]` under `c5Mapping`. -/
def c5Result : TransformationResult :=
  ⟨[], true, ["Missing required field: b"], c5Mapping⟩

/-- C5, counterexample.  The claim says that a required source field whose
value is missing makes `transform` append an error naming the field, leave
the destination unset, *and* return `isValid = false`.  With no
`validation_rules` the error is appended and the destination field stays
unset, but `isValid` is `true`. -/
theorem transform_c5_counterexample :
    transformSugarcrmToPortal c5Mapping [("z", .jstr "v")] "t" "d" = .ok c5Result
    ∧ ("Missing required field: b") ∈ c5Result.validationErrors
    ∧ getField c5Result.data "y" = none
    ∧ c5Result.isValid = true := by
  refine ⟨by decide, by decide, by decide, by decide⟩

/-- C5, amended.  For a mapping entry whose destination field is marked
required and a source record whose value for the source field is missing or
empty (JS-falsy), the transform appends `"Missing required field: <src>"`
and the destination field stays unset (provided no other mapping entry,
default value or computed field targets it); `isValid = false` holds exactly
when `validation_rules` re-flag the assembled record — in particular when
the destination field is listed in `required_fields`.  Without such rules
the error alone leaves `isValid = true` (see the counterexample). -/
theorem transform_required_missing_amended
    (m : Mapping) (recd : JRecord) (src : String) (cfg : FieldMapConfig)
    (now today : String) (res : TransformationResult)
    (hmem : (src, cfg) ∈ m.field_mappings)
    (hreq : cfg.required = true)
    (hval : truthyOpt (getField recd src) = false)
    (hall : ∀ s c, (s, c) ∈ m.field_mappings → c.portal_field = cfg.portal_field →
      c.required = true ∧ truthyOpt (getField recd s) = false)
    (hdef : ∀ ds, m.default_values = some ds → cfg.portal_field ∉ ds.map Prod.fst)
    (hcomp : ∀ cs, m.computed_fields = some cs → ∀ k c, (k, c) ∈ cs →
      c.portal_field ≠ cfg.portal_field)
    (h : transformSugarcrmToPortal m recd now today = .ok res) :
    ("Missing required field: " ++ src) ∈ res.validationErrors
    ∧ getField res.data cfg.portal_field = none
    ∧ (∀ rules fs, m.validation_rules = some rules → rules.required_fields = some fs →
        cfg.portal_field ∈ fs → res.isValid = false) := by
  have herr : ("Missing required field: " ++ src) ∈ (step1List recd m.field_mappings [] []).2 :=
    step1List_missing_mem recd src cfg m.field_mappings hmem hreq hval [] []
  have hunset : getField (assembleRecord m recd now today) cfg.portal_field = none :=
    assembleRecord_unset m recd cfg.portal_field now today hall hdef hcomp
  unfold transformSugarcrmToPortal at h
  cases hvr : m.validation_rules with
  | none =>
    simp only [hvr, Except.ok.injEq] at h
    subst h
    refine ⟨herr, hunset, ?_⟩
    intro rules fs hr
    cases hr
  | some rules =>
    simp only [hvr] at h
    cases hv : validateTransformedRecord (assembleRecord m recd now today) rules with
    | error e =>
      simp only [hv] at h
      exact absurd h (by simp)
    | ok vr =>
      simp only [hv, Except.ok.injEq] at h
      subst h
      refine ⟨List.mem_append_left _ herr, hunset, ?_⟩
      intro rules' fs hr hfs hpf
      injection hr with hr
      subst hr
      unfold validateTransformedRecord at hv
      cases hph : checkPhone rules (assembleRecord m recd now today) with
      | error e =>
        rw [hph] at hv
        exact absurd hv (by simp)
      | ok ph =>
        rw [hph] at hv
        simp only [Except.ok.injEq] at hv
        have hcr : (checkRequired fs (assembleRecord m recd now today)).1 = false := by
          refine checkRequired_false_of_mem fs _ cfg.portal_field hpf ?_
          rw [hunset]
          rfl
        have : vr.1 = ((checkRequired fs (assembleRecord m recd now today)).1
            && (checkEmail rules (assembleRecord m recd now today)).1 && ph.1) := by
          rw [← hv, hfs]
        simp [this, hcr]

/-- Concrete mapping for the C5 witness: the required destination field is
also listed in `validation_rules.required_fields`, so the amended theorem
yields `isValid = false`. -/
def c5wMapping : Mapping :=
  ⟨[("a", ⟨"x", true, "direct"⟩)], none, none, some ⟨some ["x"], false, false⟩⟩

/-- Witness for the amended C5 theorem: all hypotheses hold at a concrete
input and the conclusions follow by applying the theorem. -/
theorem transform_required_missing_amended_witness :
    (transformSugarcrmToPortal c5wMapping [] "t" "d"
        = .ok ⟨[], false, ["Missing required field: a", "Missing required field: x"], c5wMapping⟩)
    ∧ (("Missing required field: a")
          ∈ (TransformationResult.validationErrors
            ⟨[], false, ["Missing required field: a", "Missing required field: x"], c5wMapping⟩)
        ∧ getField (TransformationResult.data
            ⟨[], false, ["Missing required field: a", "Missing required field: x"], c5wMapping⟩)
            "x" = none
        ∧ (∀ rules fs, c5wMapping.validation_rules = some rules →
            rules.required_fields = some fs → "x" ∈ fs →
            (TransformationResult.isValid
              ⟨[], false, ["Missing required field: a", "Missing required field: x"],
                c5wMapping⟩) = false)) :=
  ⟨by decide,
   transform_required_missing_amended c5wMapping [] "a" ⟨"x", true, "direct"⟩ "t" "d" _
    (by decide) (by decide) (by decide)
    (by
      intro s c hm hpf
      have h1 : (s, c) = ("a", (⟨"x", true, "direct"⟩ : FieldMapConfig)) := by
        simpa [c5wMapping] using hm
      cases h1
      exact ⟨rfl, rfl⟩)
    (by intro ds hds; cases hds)
    (by intro cs hcs; cases hcs)
    (by decide)⟩

/-! ### C7: default values -/

/-- `transformSugarcrmToPortal` returns the steps-1-3 record as `data`. -/
theorem transform_ok_data (m : Mapping) (recd : JRecord) (now today : String)
    (res : TransformationResult)
    (h : transformSugarcrmToPortal m recd now today = .ok res) :
    res.data = assembleRecord m recd now today := by
  unfold transformSugarcrmToPortal at h
  cases hvr : m.validation_rules with
  | none =>
    simp only [hvr, Except.ok.injEq] at h
    subst h
    rfl
  | some rules =>
    simp only [hvr] at h
    cases hv : validateTransformedRecord (assembleRecord m recd now today) rules with
    | error e =>
      simp only [hv] at h
      exact absurd h (by simp)
    | ok vr =>
      simp only [hv, Except.ok.injEq] at h
      subst h
      rfl

/-- Value of a defaulted field after step 2: the step-1 value when that
value is truthy, the default otherwise. -/
theorem applyDefaultsList_get (ds : List (String × JVal)) (f : String) (dv : JVal)
    (hnd : (ds.map Prod.fst).Nodup) (hmem : (f, dv) ∈ ds) :
    ∀ tr, getField (applyDefaultsList ds tr) f
      = if truthyOpt (getField tr f) then getField tr f else some dv := by
  induction ds with
  | nil => cases hmem
  | cons d ds ih =>
    intro tr
    obtain ⟨g, w⟩ := d
    have hnd' : (ds.map Prod.fst).Nodup := (List.nodup_cons.mp hnd).2
    rcases List.mem_cons.mp hmem with heq | htail
    · cases heq
      have hnm : f ∉ ds.map Prod.fst := (List.nodup_cons.mp hnd).1
      by_cases ht : truthyOpt (getField tr f) = true
      · simp only [applyDefaultsList, ht, if_true]
        exact applyDefaultsList_not_mem ds f hnm tr
      · have h3 := applyDefaultsList_not_mem ds f hnm (setField tr f dv)
        rw [getField_setField_self] at h3
        simp [applyDefaultsList, ht, h3]
    · have hgf : g ≠ f := by
        intro hEq
        subst hEq
        exact (List.nodup_cons.mp hnd).1 (List.mem_map.mpr ⟨(g, dv), htail, rfl⟩)
      by_cases ht : truthyOpt (getField tr g) = true
      · simpa [applyDefaultsList, ht] using ih hnd' htail tr
      · have := ih hnd' htail (setField tr g w)
        rw [getField_setField_ne _ _ _ _ (Ne.symm hgf)] at this
        simpa [applyDefaultsList, ht] using this

/-- Concrete mapping for the C7 counterexample: a non-required source field
mapped to `status`, with `default_values = {status: "Active"}`. -/
def c7Mapping : Mapping :=
  ⟨[("a", ⟨"status", false, "direct"⟩)], some [("status", .jstr "Active")], none, none⟩

/-- C7, counterexample.  The claim says a destination field that step 1 did
set is never overwritten by a default.  With source value `0` (JS-falsy but
not `null`/`undefined`/`''`), step 1 sets `status` to `0`, yet the default
overwrites it because the default check is `if (!transformedRecord[field])`
(truthiness, not presence). -/
theorem transform_c7_counterexample :
    (step1List [("a", .jnum 0)] c7Mapping.field_mappings [] []).1 = [("status", .jnum 0)]
    ∧ transformSugarcrmToPortal c7Mapping [("a", .jnum 0)] "t" "d"
        = .ok ⟨[("status", .jstr "Active")], true, [], c7Mapping⟩ := by
  refine ⟨by decide, by decide⟩

/-- C7, amended.  A default value is written to a destination field exactly
when the value step 1 left there is JS-falsy (unset, `0`, `false`, ...); a
field step 1 set to a truthy value keeps its step-1 value, and a record that
transforms to no value for the defaulted field receives the default — also
in the final transform output, provided no computed field targets it. -/
theorem transform_defaults_amended (m : Mapping) (recd : JRecord)
    (ds : List (String × JVal)) (f : String) (dv : JVal) (now today : String)
    (hds : m.default_values = some ds)
    (hnd : (ds.map Prod.fst).Nodup)
    (hmem : (f, dv) ∈ ds) :
    (getField (applyDefaultsList ds (step1List recd m.field_mappings [] []).1) f
      = if truthyOpt (getField (step1List recd m.field_mappings [] []).1 f) then
          getField (step1List recd m.field_mappings [] []).1 f
        else some dv)
    ∧ (∀ res, (∀ cs, m.computed_fields = some cs → ∀ k c, (k, c) ∈ cs → c.portal_field ≠ f) →
        transformSugarcrmToPortal m recd now today = .ok res →
        getField res.data f
          = if truthyOpt (getField (step1List recd m.field_mappings [] []).1 f) then
              getField (step1List recd m.field_mappings [] []).1 f
            else some dv) := by
  have h2 := applyDefaultsList_get ds f dv hnd hmem (step1List recd m.field_mappings [] []).1
  refine ⟨h2, ?_⟩
  intro res hcomp h
  rw [transform_ok_data m recd now today res h]
  unfold assembleRecord
  rw [hds]
  cases hcs : m.computed_fields with
  | none => simpa using h2
  | some cs =>
    simpa using (applyComputedList_not_target now today cs f (hcomp cs hcs) _).trans h2

/-- Witness for the amended C7 theorem at a record that transforms to no
`status` value: the transformed record's `status` is `"Active"`. -/
theorem transform_defaults_amended_witness :
    c7Mapping.default_values = some [("status", JVal.jstr "Active")]
    ∧ (([("status", JVal.jstr "Active")].map Prod.fst).Nodup
        ∧ ("status", JVal.jstr "Active") ∈ [("status", JVal.jstr "Active")])
    ∧ ((getField (applyDefaultsList [("status", JVal.jstr "Active")]
            (step1List [("z", JVal.jstr "v")] c7Mapping.field_mappings [] []).1) "status"
        = if truthyOpt (getField
              (step1List [("z", JVal.jstr "v")] c7Mapping.field_mappings [] []).1 "status") then
            getField (step1List [("z", JVal.jstr "v")] c7Mapping.field_mappings [] []).1 "status"
          else some (JVal.jstr "Active"))
      ∧ (∀ res, (∀ cs, c7Mapping.computed_fields = some cs →
            ∀ k c, (k, c) ∈ cs → c.portal_field ≠ "status") →
          transformSugarcrmToPortal c7Mapping [("z", JVal.jstr "v")] "t" "d" = .ok res →
          getField res.data "status"
            = if truthyOpt (getField
                  (step1List [("z", JVal.jstr "v")] c7Mapping.field_mappings [] []).1 "status") then
                getField (step1List [("z", JVal.jstr "v")] c7Mapping.field_mappings [] []).1 "status"
              else some (JVal.jstr "Active"))) :=
  ⟨by decide, ⟨by decide, by decide⟩,
   transform_defaults_amended c7Mapping [("z", JVal.jstr "v")] [("status", JVal.jstr "Active")]
    "status" (JVal.jstr "Active") "t" "d" (by decide) (by decide) (by decide)⟩

/-! ### C8: per-record transform failures and fallback records -/

/-- JS `x || null` on a possibly-absent value. -/
def orNull (v : Option JVal) : JVal :=
  if truthyOpt v then v.getD .jnull else .jnull

/-- One processed record of the Members task (the five fields pushed to
`SugarMemberToPortalMember`). -/
structure MemberProcessed where
  tm_id_c : JVal
  member_name : JVal
  status_c : JVal
  membership_category_c : JVal
  sugarcrm_id : JVal
deriving DecidableEq

/-- The `catch` fallback of `processRecordsForPortalMembers`
(SugarCRMAccountToPortalMember task, lines 607-616): name and id from the
raw record (`|| null`), everything else `null`. -/
def memberFallback (recd : JRecord) : MemberProcessed :=
  ⟨.jnull, orNull (getField recd "name"), .jnull, .jnull, orNull (getField recd "id")⟩

/-- Per-record body of `processRecordsForPortalMembers` (lines 589-617):
transform, project the five fields (`|| null`), and on a thrown error push
the fallback instead. -/
def processMemberRecord (mapping : Mapping) (now today : String) (recd : JRecord) :
    MemberProcessed :=
  match transformSugarcrmToPortal mapping recd now today with
  | .ok t =>
    ⟨orNull (getField t.data "tm_id_c"), orNull (getField t.data "member_name"),
     orNull (getField t.data "status_c"), orNull (getField t.data "membership_category_c"),
     orNull (getField t.data "sugarcrm_id")⟩
  | .error _ => memberFallback recd

/-- `processRecordsForPortalMembers(records)` with the loaded mapping passed
as a parameter. -/
def processRecordsForPortalMembers (mapping : Mapping) (now today : String)
    (records : List JRecord) : List MemberProcessed :=
  records.map (processMemberRecord mapping now today)

/-- One processed record of the Auditors task. -/
structure AuditorProcessed where
  sugarcrm_id : JVal
  name : JVal
  auditor_user_id_c : JVal
  email_id_c : JVal
  registration_no_c : JVal
deriving DecidableEq

/-- The `catch` fallback of `processRecordsForPortalAuditors`
(SugarAuditorToPortalAuditor.js lines 153-159): `record.id` is copied as-is,
`name` falls back to the literal `'Unknown'` (not `null`), the other three
fields are `record.<field> || null`. -/
def auditorFallback (recd : JRecord) : AuditorProcessed :=
  ⟨(getField recd "id").getD .jundef,
   (if truthyOpt (getField recd "name") then (getField recd "name").getD .jundef
    else .jstr "Unknown"),
   orNull (getField recd "auditor_user_id_c"),
   orNull (getField recd "email_id_c"),
   orNull (getField recd "registration_no_c")⟩

/-- Per-record body of `processRecordsForPortalAuditors` (lines 133-160);
the success branch copies `transformed.data.<field>` without `|| null`. -/
def processAuditorRecord (mapping : Mapping) (now today : String) (recd : JRecord) :
    AuditorProcessed :=
  match transformSugarcrmToPortal mapping recd now today with
  | .ok t =>
    ⟨(getField t.data "sugarcrm_id").getD .jundef,
     (getField t.data "name").getD .jundef,
     (getField t.data "auditor_user_id_c").getD .jundef,
     (getField t.data "email_id_c").getD .jundef,
     (getField t.data "registration_no_c").getD .jundef⟩
  | .error _ => auditorFallback recd

/-- `processRecordsForPortalAuditors(auditorRecords)` with the loaded mapping
passed as a parameter. -/
def processRecordsForPortalAuditors (mapping : Mapping) (now today : String)
    (records : List JRecord) : List AuditorProcessed :=
  records.map (processAuditorRecord mapping now today)

/-- Concrete mapping for the C8 counterexample: phone validation on a
numeric phone value makes the transform throw. -/
def c8Mapping : Mapping :=
  ⟨[("p", ⟨"phone", false, "direct"⟩)], none, none, some ⟨none, false, true⟩⟩

/-- Concrete raw record for the C8 counterexample: it has an `id` but no
`name`. -/
def c8Rec : JRecord := [("id", .jstr "A1"), ("p", .jnum 7)]

/-- C8, counterexample.  The claim says the fallback record carries only the
identifiers available on the raw input with other fields null.  In the
Auditors task, a raw record with no `name` gets a fallback whose `name` is
the literal `"Unknown"` — a non-null value that was not available on the raw
input. -/
theorem process_c8_counterexample :
    transformSugarcrmToPortal c8Mapping c8Rec "t" "d"
        = .error "TypeError: record.phone.replace is not a function"
    ∧ getField c8Rec "name" = none
    ∧ processRecordsForPortalAuditors c8Mapping "t" "d" [c8Rec]
        = [⟨.jstr "A1", .jstr "Unknown", .jnull, .jnull, .jnull⟩] := by
  refine ⟨by decide, by decide, by decide⟩

/-- C8, amended.  Both orchestrators catch per-record transform errors: the
output batch always has exactly one entry per input record, and an input
whose transform throws yields the task's fallback record built only from the
raw input (for Members: name and id, other fields null; for Auditors: the
five mapped raw fields, with `name` defaulting to `"Unknown"` rather than
null). -/
theorem process_records_amended (mapping : Mapping) (now today : String)
    (records : List JRecord) :
    (processRecordsForPortalMembers mapping now today records).length = records.length
    ∧ (processRecordsForPortalAuditors mapping now today records).length = records.length
    ∧ (∀ i recd e, records.get? i = some recd →
        transformSugarcrmToPortal mapping recd now today = .error e →
        (processRecordsForPortalMembers mapping now today records).get? i
            = some (memberFallback recd)
        ∧ (processRecordsForPortalAuditors mapping now today records).get? i
            = some (auditorFallback recd))
    ∧ (∀ recd, (memberFallback recd).tm_id_c = .jnull
        ∧ (memberFallback recd).status_c = .jnull
        ∧ (memberFallback recd).membership_category_c = .jnull) := by
  refine ⟨List.length_map _ _, List.length_map _ _, ?_, fun recd => ⟨rfl, rfl, rfl⟩⟩
  intro i recd e hget htr
  constructor
  · rw [processRecordsForPortalMembers, List.get?_map, hget]
    simp [processMemberRecord, htr]
  · rw [processRecordsForPortalAuditors, List.get?_map, hget]
    simp [processAuditorRecord, htr]

/-- Witness for the amended C8 theorem at the concrete throwing record. -/
theorem process_records_amended_witness :
    ([c8Rec].get? 0 = some c8Rec)
    ∧ (transformSugarcrmToPortal c8Mapping c8Rec "t" "d"
        = .error "TypeError: record.phone.replace is not a function")
    ∧ ((processRecordsForPortalMembers c8Mapping "t" "d" [c8Rec]).get? 0
          = some (memberFallback c8Rec)
        ∧ (processRecordsForPortalAuditors c8Mapping "t" "d" [c8Rec]).get? 0
          = some (auditorFallback c8Rec)) :=
  ⟨by decide, by decide,
   (process_records_amended c8Mapping "t" "d" [c8Rec]).2.2.1 0 c8Rec
    "TypeError: record.phone.replace is not a function" (by decide) (by decide)⟩

/-! ### C4 and C10: the sync-record (checkpoint) store -/

/-- A sync checkpoint record (one element of `sync_records` in
integration_last_sync.json). -/
structure SyncRecord where
  module_name : String
  integration_name : String
  direction : String
  endpoint : Option String
  last_sync_at : Option String
  updated_at : String
  status : String
  metadata : Option JRecord
deriving DecidableEq

/-- The persisted sync-tracking document (its `sync_records` list). -/
structure SyncStore where
  sync_records : List SyncRecord
deriving DecidableEq

/-- The identifier predicate of syncTracker.js: a record resolves when its
`module_name` or `integration_name` equals the identifier. -/
def matchesIdentifier (identifier : String) (r : SyncRecord) : Bool :=
  r.module_name == identifier || r.integration_name == identifier

/-- `getSyncRecord(identifier)` (syncTracker.js lines 151-158). -/
def getSyncRecord (store : SyncStore) (identifier : String) : Option SyncRecord :=
  store.sync_records.find? (matchesIdentifier identifier)

/-- The `last_sync_at` value supplied in an update call: the key may be
absent, an explicit `null`, or a string (the empty string is JS-falsy). -/
inductive UpdVal where
  | absent
  | null
  | str (s : String)
deriving DecidableEq

/-- The partial fields callers pass to `updateSyncRecord`. -/
structure UpdateData where
  status : Option String
  last_sync_at : UpdVal
  updated_at : Option String
  metadata : Option JRecord
deriving DecidableEq

/-- The merge of syncTracker.js lines 183-188:
`{...record, ...updateData, updated_at: now,
  last_sync_at: updateData.last_sync_at || record.last_sync_at}`.
A supplied `updated_at` is always overridden by `now`; a falsy supplied
`last_sync_at` (absent, `null` or `""`) keeps the prior value. -/
def mergeRecord (r : SyncRecord) (u : UpdateData) (now : String) : SyncRecord :=
  { r with
    status := u.status.getD r.status
    metadata := match u.metadata with
      | some md => some md
      | none => r.metadata
    updated_at := now
    last_sync_at := match u.last_sync_at with
      | .str s => if s = "" then r.last_sync_at else some s
      | _ => r.last_sync_at }

/-- Replace the first record matching the identifier by its merge
(`findIndex` + assignment of syncTracker.js lines 170-189), returning the
new list and the merged record, or `none` when no record matches. -/
def updateList (identifier : String) (u : UpdateData) (now : String) :
    List SyncRecord → Option (List SyncRecord × SyncRecord)
  | [] => none
  | r :: rs =>
    if matchesIdentifier identifier r then
      some (mergeRecord r u now :: rs, mergeRecord r u now)
    else
      match updateList identifier u now rs with
      | none => none
      | some (rs', m) => some (r :: rs', m)

/-- `updateSyncRecord(identifier, updateData)` (syncTracker.js lines
168-192): throw when no record resolves (nothing is saved), otherwise merge
and save the whole document.  The returned store is the saved document. -/
def updateSyncRecord (store : SyncStore) (identifier : String) (u : UpdateData) (now : String) :
    Except String (SyncStore × SyncRecord) :=
  match updateList identifier u now store.sync_records with
  | none => .error ("Sync record not found for identifier: " ++ identifier)
  | some (rs, m) => .ok (⟨rs⟩, m)

theorem matchesIdentifier_mergeRecord (identifier : String) (r : SyncRecord)
    (u : UpdateData) (now : String) :
    matchesIdentifier identifier (mergeRecord r u now) = matchesIdentifier identifier r := rfl

theorem updateList_spec (identifier : String) (u : UpdateData) (now : String)
    (l : List SyncRecord) :
    (l.find? (matchesIdentifier identifier) = none → updateList identifier u now l = none)
    ∧ (∀ r, l.find? (matchesIdentifier identifier) = some r →
        ∃ l', updateList identifier u now l = some (l', mergeRecord r u now)
          ∧ l'.length = l.length
          ∧ l'.find? (matchesIdentifier identifier) = some (mergeRecord r u now)
          ∧ ∀ x ∈ l', x = mergeRecord r u now ∨ x ∈ l) := by
  induction l with
  | nil => exact ⟨fun _ => rfl, fun r hr => absurd hr (by simp)⟩
  | cons r₀ rs ih =>
    by_cases hm : matchesIdentifier identifier r₀ = true
    · constructor
      · intro hnone
        rw [List.find?_cons_of_pos _ hm] at hnone
        cases hnone
      · intro r hr
        rw [List.find?_cons_of_pos _ hm] at hr
        injection hr with hr
        subst hr
        refine ⟨mergeRecord r₀ u now :: rs, ?_, by simp, ?_, ?_⟩
        · simp [updateList, hm]
        · rw [List.find?_cons_of_pos _ (by rw [matchesIdentifier_mergeRecord]; exact hm)]
        · intro x hx
          rcases List.mem_cons.mp hx with hx | hx
          · exact Or.inl hx
          · exact Or.inr (List.mem_cons_of_mem _ hx)
    · have hfind : (r₀ :: rs).find? (matchesIdentifier identifier)
          = rs.find? (matchesIdentifier identifier) :=
        List.find?_cons_of_neg _ (by simpa using hm)
      constructor
      · intro hnone
        rw [hfind] at hnone
        have := ih.1 hnone
        simp [updateList, hm, this]
      · intro r hr
        rw [hfind] at hr
        obtain ⟨l', h1, h2, h3, h4⟩ := ih.2 r hr
        refine ⟨r₀ :: l', ?_, by simp [h2], ?_, ?_⟩
        · simp [updateList, hm, h1]
        · rw [List.find?_cons_of_neg _ (by simpa using hm)]
          exact h3
        · intro x hx
          rcases List.mem_cons.mp hx with hx | hx
          · exact Or.inr (by simp [hx])
          · rcases h4 x hx with h | h
            · exact Or.inl h
            · exact Or.inr (List.mem_cons_of_mem _ h)

/-- C4 (confirmed).  `updateSyncRecord`: when no checkpoint resolves for the
identifier it fails with the not-found error (and nothing is saved);
otherwise it merges the supplied partial fields into the existing record,
always stamps `updated_at` with the current time, leaves `last_sync_at` at
its prior value unless the caller supplies a new (truthy) value for it, and
rewrites only that record (same store size, every other record unchanged).
"Explicitly supplies a new value" is formalised as supplying a non-null,
non-empty string — a supplied `null`/`""` is falsy and preserves the prior
value (that behaviour is claim C10). -/
theorem updateSyncRecord_spec (store : SyncStore) (identifier : String) (u : UpdateData)
    (now : String) :
    (getSyncRecord store identifier = none →
      updateSyncRecord store identifier u now
        = .error ("Sync record not found for identifier: " ++ identifier))
    ∧ (∀ r, getSyncRecord store identifier = some r →
        ∃ store', updateSyncRecord store identifier u now
            = .ok (store', mergeRecord r u now)
          ∧ (mergeRecord r u now).updated_at = now
          ∧ (mergeRecord r u now).status = u.status.getD r.status
          ∧ (mergeRecord r u now).metadata = (match u.metadata with
              | some md => some md
              | none => r.metadata)
          ∧ (mergeRecord r u now).last_sync_at = (match u.last_sync_at with
              | .str s => if s = "" then r.last_sync_at else some s
              | _ => r.last_sync_at)
          ∧ (mergeRecord r u now).module_name = r.module_name
          ∧ (mergeRecord r u now).integration_name = r.integration_name
          ∧ (mergeRecord r u now).direction = r.direction
          ∧ (mergeRecord r u now).endpoint = r.endpoint
          ∧ store'.sync_records.length = store.sync_records.length
          ∧ getSyncRecord store' identifier = some (mergeRecord r u now)
          ∧ ∀ x ∈ store'.sync_records, x = mergeRecord r u now ∨ x ∈ store.sync_records) := by
  constructor
  · intro hnone
    have := (updateList_spec identifier u now store.sync_records).1 hnone
    simp [updateSyncRecord, this]
  · intro r hr
    obtain ⟨l', h1, h2, h3, h4⟩ := (updateList_spec identifier u now store.sync_records).2 r hr
    exact ⟨⟨l'⟩, by simp [updateSyncRecord, h1], rfl, rfl, rfl, rfl, rfl, rfl, rfl, rfl,
      h2, h3, h4⟩

/-- A concrete checkpoint record used by the store witnesses. -/
def wRecord : SyncRecord :=
  ⟨"Members", "sugarcrm_members", "inbound", none, some "2025-09-01T00:00:00Z",
   "2025-09-01T00:00:00Z", "success", none⟩

/-- A concrete one-record store used by the store witnesses. -/
def wStore : SyncStore := ⟨[wRecord]⟩

/-- A concrete update supplying a truthy `last_sync_at`. -/
def wUpdate : UpdateData := ⟨some "success", .str "2025-09-02T10:00:00Z", none, none⟩

/-- Witness for the C4 theorem at a concrete store and update. -/
theorem updateSyncRecord_spec_witness :
    getSyncRecord wStore "Members" = some wRecord
    ∧ (∃ store', updateSyncRecord wStore "Members" wUpdate "2025-09-02T10:00:00Z"
          = .ok (store', mergeRecord wRecord wUpdate "2025-09-02T10:00:00Z")
        ∧ (mergeRecord wRecord wUpdate "2025-09-02T10:00:00Z").updated_at
            = "2025-09-02T10:00:00Z"
        ∧ (mergeRecord wRecord wUpdate "2025-09-02T10:00:00Z").status
            = wUpdate.status.getD wRecord.status
        ∧ (mergeRecord wRecord wUpdate "2025-09-02T10:00:00Z").metadata
            = (match wUpdate.metadata with
              | some md => some md
              | none => wRecord.metadata)
        ∧ (mergeRecord wRecord wUpdate "2025-09-02T10:00:00Z").last_sync_at
            = (match wUpdate.last_sync_at with
              | .str s => if s = "" then wRecord.last_sync_at else some s
              | _ => wRecord.last_sync_at)
        ∧ (mergeRecord wRecord wUpdate "2025-09-02T10:00:00Z").module_name
            = wRecord.module_name
        ∧ (mergeRecord wRecord wUpdate "2025-09-02T10:00:00Z").integration_name
            = wRecord.integration_name
        ∧ (mergeRecord wRecord wUpdate "2025-09-02T10:00:00Z").direction
            = wRecord.direction
        ∧ (mergeRecord wRecord wUpdate "2025-09-02T10:00:00Z").endpoint
            = wRecord.endpoint
        ∧ store'.sync_records.length = wStore.sync_records.length
        ∧ getSyncRecord store' "Members"
            = some (mergeRecord wRecord wUpdate "2025-09-02T10:00:00Z")
        ∧ ∀ x ∈ store'.sync_records,
            x = mergeRecord wRecord wUpdate "2025-09-02T10:00:00Z"
            ∨ x ∈ wStore.sync_records) :=
  ⟨by decide,
   (updateSyncRecord_spec wStore "Members" wUpdate "2025-09-02T10:00:00Z").2 wRecord
    (by decide)⟩

/-- The update data the `manageSync reset <identifier>` command supplies
(manageSync.js lines 182-185): `{status: 'pending', last_sync_at: null}`. -/
def resetUpdateData : UpdateData := ⟨some "pending", .null, none, none⟩

/-- `handleResetCommand` for a single identifier (manageSync.js lines
177-187; the no-identifier branch resets all records instead and is not
modelled here). -/
def handleResetCommand (store : SyncStore) (identifier : String) (now : String) :
    Except String (SyncStore × SyncRecord) :=
  updateSyncRecord store identifier resetUpdateData now

/-- C10 (confirmed).  An update whose supplied `last_sync_at` is falsy
(absent key, `null`, or `""`) leaves the stored `last_sync_at` unchanged; in
particular the `manageSync reset <identifier>` command, which supplies
`last_sync_at: null`, sets `status` to `'pending'` but does not clear the
stored `last_sync_at`. -/
theorem update_falsy_last_sync_preserved (store : SyncStore) (identifier : String)
    (now : String) (r : SyncRecord) (h : getSyncRecord store identifier = some r) :
    (∀ u : UpdateData,
      (u.last_sync_at = .absent ∨ u.last_sync_at = .null ∨ u.last_sync_at = .str "") →
      ∃ store', updateSyncRecord store identifier u now = .ok (store', mergeRecord r u now)
        ∧ (mergeRecord r u now).last_sync_at = r.last_sync_at)
    ∧ (∃ store', handleResetCommand store identifier now
          = .ok (store', mergeRecord r resetUpdateData now)
        ∧ (mergeRecord r resetUpdateData now).status = "pending"
        ∧ (mergeRecord r resetUpdateData now).last_sync_at = r.last_sync_at
        ∧ getSyncRecord store' identifier = some (mergeRecord r resetUpdateData now)) := by
  constructor
  · intro u hu
    obtain ⟨l', h1, _, _, _⟩ := (updateList_spec identifier u now store.sync_records).2 r h
    refine ⟨⟨l'⟩, by simp [updateSyncRecord, h1], ?_⟩
    have hml : (mergeRecord r u now).last_sync_at = (match u.last_sync_at with
      | .str s => if s = "" then r.last_sync_at else some s
      | _ => r.last_sync_at) := rfl
    rw [hml]
    rcases hu with hu | hu | hu
    · rw [hu]
    · rw [hu]
    · rw [hu]
      simp
  · obtain ⟨l', h1, _, h3, _⟩ :=
      (updateList_spec identifier resetUpdateData now store.sync_records).2 r h
    exact ⟨⟨l'⟩, by simp [handleResetCommand, updateSyncRecord, h1], rfl, rfl, h3⟩

/-- Witness for the C10 theorem: resetting the concrete store keeps
`last_sync_at` and sets `status` to pending. -/
theorem update_falsy_last_sync_preserved_witness :
    getSyncRecord wStore "Members" = some wRecord
    ∧ ((∀ u : UpdateData,
          (u.last_sync_at = .absent ∨ u.last_sync_at = .null ∨ u.last_sync_at = .str "") →
          ∃ store', updateSyncRecord wStore "Members" u "2025-09-03T00:00:00Z"
              = .ok (store', mergeRecord wRecord u "2025-09-03T00:00:00Z")
            ∧ (mergeRecord wRecord u "2025-09-03T00:00:00Z").last_sync_at
                = wRecord.last_sync_at)
        ∧ (∃ store', handleResetCommand wStore "Members" "2025-09-03T00:00:00Z"
              = .ok (store', mergeRecord wRecord resetUpdateData "2025-09-03T00:00:00Z")
            ∧ (mergeRecord wRecord resetUpdateData "2025-09-03T00:00:00Z").status = "pending"
            ∧ (mergeRecord wRecord resetUpdateData "2025-09-03T00:00:00Z").last_sync_at
                = wRecord.last_sync_at
            ∧ getSyncRecord store' "Members"
                = some (mergeRecord wRecord resetUpdateData "2025-09-03T00:00:00Z"))) :=
  ⟨by decide,
   update_falsy_last_sync_preserved wStore "Members" "2025-09-03T00:00:00Z" wRecord
    (by decide)⟩

/-! ### The sync tasks (C2 and C3) -/

/-- Lexicographic strict order on character lists (kernel-reducible). -/
def charListLT : List Char → List Char → Bool
  | [], [] => false
  | [], _ :: _ => true
  | _ :: _, [] => false
  | a :: as, b :: bs => a < b || (a == b && charListLT as bs)

/-- `a <= b` on strings, lexicographically (ISO-8601 timestamps compare
chronologically this way). -/
def strLE (a b : String) : Bool := a == b || charListLT a.data b.data

/-- Server-side semantics of the `date_modified: {$gte: t}` filter the
SugarCRM collaborator applies: a record passes when its `date_modified` is a
string on or after `t`. -/
def dateGE (r : JRecord) (t : String) : Bool :=
  match getField r "date_modified" with
  | some (.jstr d) => strLE t d
  | _ => false

/-- JS truthiness of the checkpoint's `last_sync_at` (the tasks add the date
filter only `if (lastSyncDate)`). -/
def truthyStr : Option String → Option String
  | some s => if s = "" then none else some s
  | none => none

/-- What the SugarCRM collaborator returns for a query: the source records
matching the (optional) date filter and the task's static filters. -/
def serverFetch (src : List JRecord) (lastSync : Option String)
    (staticFilter : JRecord → Bool) : List JRecord :=
  src.filter (fun r => (match lastSync with
    | some t => dateGE r t
    | none => true) && staticFilter r)

/-- Server-side semantics of the Members task's unconditional filters
(encrypt-env.js lines 419-435): `tm_id_c` not null and not `"0"`,
`acc_type_c = "Member"`. -/
def memberStaticFilter (r : JRecord) : Bool :=
  (match getField r "tm_id_c" with
   | some v => v != .jnull
   | none => false)
  && (getField r "tm_id_c" != some (.jstr "0"))
  && (getField r "acc_type_c" == some (.jstr "Member"))

/-- The `lastSyncDate` a task reads from the checkpoint: present only when
the stored `last_sync_at` is truthy. -/
def checkpointLastSync (store : SyncStore) (moduleName : String) : Option String :=
  match getSyncRecord store moduleName with
  | some r => truthyStr r.last_sync_at
  | none => none

/-- The observable outcome of one task run: the (possibly rewritten)
checkpoint store, the task outcome (the re-raised error, if any), the
fetched records, and the record batches handed to the Portal push. -/
structure TaskRun (β : Type) where
  store : SyncStore
  outcome : Except String Unit
  fetched : List JRecord
  pushedBatches : List β
deriving DecidableEq

/-- `null`-or-string as a JS value. -/
def optToJVal : Option String → JVal
  | some s => .jstr s
  | none => .jnull

/-- The Members success update (encrypt-env.js lines 526-535): status
`success`, `last_sync_at` stamped with the run-start timestamp, metadata
with the fetch counts. -/
def memberSuccessUpdate (tStart : String) (total : Nat) (lastSyncDate : Option String) :
    UpdateData :=
  ⟨some "success", .str tStart, none,
   some [("records_fetched", .jnum total), ("sugarcrm_module", .jstr "Accounts"),
         ("sync_duration", .jstr tStart), ("last_sync_date_used", optToJVal lastSyncDate)]⟩

/-- The Members failure update (encrypt-env.js lines 558-565): status
`failed` and error metadata — note no `last_sync_at` is supplied, so the
prior value survives. -/
def memberFailureUpdate (e : String) (tEnd : String) : UpdateData :=
  ⟨some "failed", .absent, none,
   some [("error_message", .jstr e), ("failed_at", .jstr tEnd),
         ("sugarcrm_module", .jstr "Accounts")]⟩

/-- The Members catch-handler (encrypt-env.js lines 546-576): update the
checkpoint to failed (an inner try/catch absorbs a failing update), then
re-raise the original error. -/
def membersCatch (store : SyncStore) (e : String) (records : List JRecord) (tEnd : String) :
    TaskRun (List MemberProcessed) :=
  match updateSyncRecord store "Members" (memberFailureUpdate e tEnd) tEnd with
  | .ok (store', _) => ⟨store', .error e, records, []⟩
  | .error _ => ⟨store, .error e, records, []⟩

/-- `SugarCRMAccountToPortalMember()` (encrypt-env.js lines 369-577).
`src` is the SugarCRM source data (the paginated fetch returns the records
matching the filters), `fetchR` the transport outcome of the fetch,
`tStart` the `currentTimestamp` taken at run start (used as the new
`last_sync_at`), `tEnd` the wall clock of the checkpoint writes.

When the fetch returns records, the success-path logging call at lines
495-499 references the undefined identifiers `accountsWithOfficers` and
`totalComplianceOfficers`; the resulting ReferenceError is caught by the
task's catch-handler, so the Portal push of this task is unreachable and
every non-empty run ends `failed`. -/
def runMembers (store : SyncStore) (src : List JRecord) (fetchR : Except String Unit)
    (mapping : Mapping) (now today tStart tEnd : String) : TaskRun (List MemberProcessed) :=
  let lastSyncDate := checkpointLastSync store "Members"
  match fetchR with
  | .error e => membersCatch store e [] tEnd
  | .ok _ =>
    let records := serverFetch src lastSyncDate memberStaticFilter
    if records.isEmpty then
      match updateSyncRecord store "Members"
          (memberSuccessUpdate tStart records.length lastSyncDate) tEnd with
      | .ok (store', _) => ⟨store', .ok (), records, []⟩
      | .error e => membersCatch store e records tEnd
    else
      let _processed := processRecordsForPortalMembers mapping now today records
      membersCatch store "ReferenceError: accountsWithOfficers is not defined" records tEnd

/-- One processed record of the Cases task (encrypt-env.js lines 268-284). -/
structure CaseProcessed where
  case_id : JVal
  name : JVal
  case_number : JVal
  member_id : JVal
  type : JVal
  sub_type : JVal
  audit_details : JVal
  audit_due_date : JVal
  from_period : JVal
  to_period : JVal
  audit_user_id : JVal
  margin : JVal
  stage : JVal
  comment : JVal
  rejection_type : JVal
deriving DecidableEq

/-- The Cases `catch` fallback (encrypt-env.js lines 292-308): id and name
from the raw record, all other fields null. -/
def caseFallback (recd : JRecord) : CaseProcessed :=
  ⟨orNull (getField recd "id"), orNull (getField recd "name"), .jnull, .jnull, .jnull,
   .jnull, .jnull, .jnull, .jnull, .jnull, .jnull, .jnull, .jnull, .jnull, .jnull⟩

/-- Per-record body of `processRecordsForPortalCases` (lines 262-309). -/
def processCaseRecord (mapping : Mapping) (now today : String) (recd : JRecord) :
    CaseProcessed :=
  match transformSugarcrmToPortal mapping recd now today with
  | .ok t =>
    ⟨orNull (getField t.data "case_id"), orNull (getField t.data "name"),
     orNull (getField t.data "case_number"), orNull (getField t.data "member_id"),
     orNull (getField t.data "type"), orNull (getField t.data "sub_type"),
     orNull (getField t.data "audit_details"), orNull (getField t.data "audit_due_date"),
     orNull (getField t.data "from_period"), orNull (getField t.data "to_period"),
     orNull (getField t.data "audit_user_id"), orNull (getField t.data "margin"),
     orNull (getField t.data "stage"), orNull (getField t.data "comment"),
     orNull (getField t.data "rejection_type")⟩
  | .error _ => caseFallback recd

/-- `processRecordsForPortalCases(records)` with the loaded mapping passed
as a parameter. -/
def processRecordsForPortalCases (mapping : Mapping) (now today : String)
    (records : List JRecord) : List CaseProcessed :=
  records.map (processCaseRecord mapping now today)

/-- The Cases success update (encrypt-env.js lines 206-215). -/
def caseSuccessUpdate (tSucc : String) (total : Nat) (lastSyncDate : Option String) :
    UpdateData :=
  ⟨some "success", .str tSucc, none,
   some [("records_fetched", .jnum total), ("sugarcrm_module", .jstr "Cases"),
         ("sync_duration", .jstr tSucc), ("last_sync_date_used", optToJVal lastSyncDate)]⟩

/-- The Cases failure update (encrypt-env.js lines 238-246): status `failed`
AND `last_sync_at: currentTimestamp` — the failure handler re-stamps the
high-water mark with the failure-time timestamp. -/
def caseFailureUpdate (e : String) (tFail : String) : UpdateData :=
  ⟨some "failed", .str tFail, none,
   some [("error_message", .jstr e), ("failed_at", .jstr tFail),
         ("sugarcrm_module", .jstr "Cases")]⟩

/-- The Cases catch-handler (encrypt-env.js lines 226-249): the unguarded
checkpoint update (whose own failure would replace the original error),
then the re-raise. -/
def casesCatch (store : SyncStore) (e : String) (records : List JRecord)
    (pushed : List (List CaseProcessed)) (tFail : String) : TaskRun (List CaseProcessed) :=
  match updateSyncRecord store "Cases" (caseFailureUpdate e tFail) tFail with
  | .ok (store', _) => ⟨store', .error e, records, pushed⟩
  | .error e2 => ⟨store, .error e2, records, pushed⟩

/-- `SugarImportCasesToPortalCases()` (encrypt-env.js lines 61-250).
`tSucc` is the `currentTimestamp` taken after processing (line 205), `tFail`
the one taken inside the catch (line 237); `pushR` is the outcome of
`syncToPortalCases` (the Portal API call). -/
def runCases (store : SyncStore) (src : List JRecord) (fetchR : Except String Unit)
    (pushR : Except String Unit) (mapping : Mapping) (now today tSucc tFail : String) :
    TaskRun (List CaseProcessed) :=
  let lastSyncDate := checkpointLastSync store "Cases"
  match fetchR with
  | .error e => casesCatch store e [] [] tFail
  | .ok _ =>
    let records := serverFetch src lastSyncDate (fun _ => true)
    if records.isEmpty then
      match updateSyncRecord store "Cases"
          (caseSuccessUpdate tSucc records.length lastSyncDate) tSucc with
      | .ok (store', _) => ⟨store', .ok (), records, []⟩
      | .error e => casesCatch store e records [] tFail
    else
      let processed := processRecordsForPortalCases mapping now today records
      match pushR with
      | .error e => casesCatch store e records [processed] tFail
      | .ok _ =>
        match updateSyncRecord store "Cases"
            (caseSuccessUpdate tSucc records.length lastSyncDate) tSucc with
        | .ok (store', _) => ⟨store', .ok (), records, [processed]⟩
        | .error e => casesCatch store e records [processed] tFail

/-- The Auditors success update (SugarAuditorToPortalAuditor.js lines
94-99): `last_sync_at` and `updated_at` stamped (the supplied `updated_at`
is overridden by the store anyway), status `completed`. -/
def auditorUpdate (tCur : String) : UpdateData :=
  ⟨some "completed", .str tCur, some tCur, none⟩

/-- The Auditor fetch filter (lines 40-46): `date_modified: {$gte:
lastSyncDate}` is sent unconditionally, with whatever `last_sync_at` holds;
a null bound matches nothing in this model (the theorems only exercise
non-null bounds). -/
def serverFetchAud (src : List JRecord) (lastSync : Option String) : List JRecord :=
  src.filter (fun r => match lastSync with
    | some t => dateGE r t
    | none => false)

/-- `sugarAuditorToPortalAuditor()` (SugarAuditorToPortalAuditor.js lines
15-121).  With no checkpoint the task throws; with zero fetched records it
`return`s early — performing **no** checkpoint update.  The catch-handler
performs no checkpoint update either, and the success update is not
awaited, so a failing update does not fail the task. -/
def runAuditor (store : SyncStore) (src : List JRecord) (fetchR : Except String Unit)
    (pushR : Except String Unit) (mapping : Mapping) (now today tCur : String) :
    TaskRun (List AuditorProcessed) :=
  match getSyncRecord store "Auditors" with
  | none =>
    ⟨store, .error "No sync record found for Auditors module. Please create one first.", [], []⟩
  | some syncRecord =>
    match fetchR with
    | .error e => ⟨store, .error e, [], []⟩
    | .ok _ =>
      let records := serverFetchAud src syncRecord.last_sync_at
      if records.isEmpty then ⟨store, .ok (), records, []⟩
      else
        let processed := processRecordsForPortalAuditors mapping now today records
        match pushR with
        | .error e => ⟨store, .error e, records, [processed]⟩
        | .ok _ =>
          match updateSyncRecord store "Auditors" (auditorUpdate tCur) tCur with
          | .ok (store', _) => ⟨store', .ok (), records, [processed]⟩
          | .error _ => ⟨store, .ok (), records, [processed]⟩

/-! ### C2: failed run and the checkpoint -/

/-- The Cases checkpoint before the failing run: `last_sync_at` is the
2025-09-01 high-water mark. -/
def c2Record : SyncRecord :=
  ⟨"Cases", "sugarcrm_cases", "inbound", none, some "2025-09-01T00:00:00Z",
   "2025-09-01T00:00:00Z", "success", none⟩

/-- The store before the failing Cases run. -/
def c2Store : SyncStore := ⟨[c2Record]⟩

/-- A minimal Cases field mapping. -/
def c2Mapping : Mapping :=
  ⟨[("id", ⟨"case_id", false, "direct"⟩), ("name", ⟨"name", false, "direct"⟩)],
   none, none, none⟩

/-- Five source records modified after the last sync. -/
def c2Src : List JRecord :=
  [[("id", .jstr "C1"), ("name", .jstr "Case one"),
    ("date_modified", .jstr "2025-09-05T01:00:00Z")],
   [("id", .jstr "C2"), ("name", .jstr "Case two"),
    ("date_modified", .jstr "2025-09-05T02:00:00Z")],
   [("id", .jstr "C3"), ("name", .jstr "Case three"),
    ("date_modified", .jstr "2025-09-05T03:00:00Z")],
   [("id", .jstr "C4"), ("name", .jstr "Case four"),
    ("date_modified", .jstr "2025-09-05T04:00:00Z")],
   [("id", .jstr "C5"), ("name", .jstr "Case five"),
    ("date_modified", .jstr "2025-09-05T05:00:00Z")]]

/-- The failing Cases run: fetch succeeds with 5 records, the Portal push
raises a Transport error, the catch runs at 2025-09-10T12:00:05Z. -/
def c2Run : TaskRun (List CaseProcessed) :=
  runCases c2Store c2Src (.ok ()) (.error "Transport error") c2Mapping
    "t" "d" "2025-09-10T12:00:00Z" "2025-09-10T12:00:05Z"

/-- C2 (code bug).  The claim (and the spec's invariant) says a failed run
leaves `last_sync_at` unchanged.  The Cases task's catch-handler passes
`last_sync_at: currentTimestamp`, so after a push failure following a
successful fetch of 5 records the checkpoint ends `status = failed` and the
error is re-raised — but `last_sync_at` has been re-stamped from
2025-09-01 to the failure time, losing the retry window.  (The Members
task's catch-handler correctly omits `last_sync_at`.) -/
theorem runCases_failure_restamps_last_sync :
    c2Run.outcome = .error "Transport error"
    ∧ c2Run.fetched.length = 5
    ∧ c2Run.pushedBatches.length = 1
    ∧ (getSyncRecord c2Run.store "Cases").map SyncRecord.status = some "failed"
    ∧ (getSyncRecord c2Run.store "Cases").map SyncRecord.last_sync_at
        = some (some "2025-09-10T12:00:05Z")
    ∧ c2Record.last_sync_at = some "2025-09-01T00:00:00Z"
    ∧ ("2025-09-10T12:00:05Z" : String) ≠ "2025-09-01T00:00:00Z" := by
  refine ⟨by decide, by decide, by decide, by decide, by decide, by decide, by decide⟩

/-! ### C3: re-running with an unchanged source -/

theorem serverFetch_empty (src : List JRecord) (t1 : String)
    (staticFilter : JRecord → Bool)
    (hsrc : ∀ recd ∈ src, ∃ d, getField recd "date_modified" = some (.jstr d)
        ∧ strLE t1 d = false) :
    serverFetch src (some t1) staticFilter = [] ∧ serverFetchAud src (some t1) = [] := by
  constructor
  · rw [serverFetch, List.filter_eq_nil]
    intro recd hm
    obtain ⟨d, hd, hle⟩ := hsrc recd hm
    simp [dateGE, hd, hle]
  · rw [serverFetchAud, List.filter_eq_nil]
    intro recd hm
    obtain ⟨d, hd, hle⟩ := hsrc recd hm
    simp [dateGE, hd, hle]

/-- C3, amended.  "Source data unchanged between the runs" is formalised as:
every source record's `date_modified` is a string strictly before the first
run's stamp `t1`.  Under that hypothesis a re-run fetches zero records and
performs no Portal push for every task; the Members and Cases tasks still
commit the checkpoint (`status = success`, `last_sync_at` re-stamped to the
new run time `t2`), but the Auditor task returns early **without** touching
the checkpoint at all — its store is unchanged, `last_sync_at` is not
re-stamped. -/
theorem second_run_zero_fetch_amended
    (store : SyncStore) (src : List JRecord) (mapping : Mapping)
    (now today t1 t2 tEnd : String)
    (hsrc : ∀ recd ∈ src, ∃ d, getField recd "date_modified" = some (.jstr d)
        ∧ strLE t1 d = false) :
    (∀ r, getSyncRecord store "Members" = some r → r.last_sync_at = some t1 →
      t1 ≠ "" → t2 ≠ "" →
      (runMembers store src (.ok ()) mapping now today t2 tEnd).fetched = []
      ∧ (runMembers store src (.ok ()) mapping now today t2 tEnd).pushedBatches = []
      ∧ (runMembers store src (.ok ()) mapping now today t2 tEnd).outcome = .ok ()
      ∧ ∃ r', getSyncRecord (runMembers store src (.ok ()) mapping now today t2 tEnd).store
            "Members" = some r'
          ∧ r'.status = "success" ∧ r'.last_sync_at = some t2)
    ∧ (∀ rC, getSyncRecord store "Cases" = some rC → rC.last_sync_at = some t1 →
      t1 ≠ "" → t2 ≠ "" →
      (runCases store src (.ok ()) (.ok ()) mapping now today t2 tEnd).fetched = []
      ∧ (runCases store src (.ok ()) (.ok ()) mapping now today t2 tEnd).pushedBatches = []
      ∧ (runCases store src (.ok ()) (.ok ()) mapping now today t2 tEnd).outcome = .ok ()
      ∧ ∃ r', getSyncRecord
            (runCases store src (.ok ()) (.ok ()) mapping now today t2 tEnd).store
            "Cases" = some r'
          ∧ r'.status = "success" ∧ r'.last_sync_at = some t2)
    ∧ (∀ rA, getSyncRecord store "Auditors" = some rA → rA.last_sync_at = some t1 →
      (runAuditor store src (.ok ()) (.ok ()) mapping now today t2).fetched = []
      ∧ (runAuditor store src (.ok ()) (.ok ()) mapping now today t2).pushedBatches = []
      ∧ (runAuditor store src (.ok ()) (.ok ()) mapping now today t2).outcome = .ok ()
      ∧ (runAuditor store src (.ok ()) (.ok ()) mapping now today t2).store = store) := by
  refine ⟨?_, ?_, ?_⟩
  · intro r hr hls ht1 ht2
    have hlsd : checkpointLastSync store "Members" = some t1 := by
      simp only [checkpointLastSync, hr, hls, truthyStr]
      simp [ht1]
    have hfetch := (serverFetch_empty src t1 memberStaticFilter hsrc).1
    obtain ⟨l', h1, _, h3, _⟩ :=
      (updateList_spec "Members" (memberSuccessUpdate t2 0 (some t1)) tEnd
        store.sync_records).2 r hr
    have hupd : updateSyncRecord store "Members" (memberSuccessUpdate t2 0 (some t1)) tEnd
        = .ok (⟨l'⟩, mergeRecord r (memberSuccessUpdate t2 0 (some t1)) tEnd) := by
      simp [updateSyncRecord, h1]
    have hrun : runMembers store src (.ok ()) mapping now today t2 tEnd
        = ⟨⟨l'⟩, .ok (), [], []⟩ := by
      unfold runMembers
      simp only [hlsd, hfetch, List.isEmpty_nil, List.length_nil, if_true, hupd]
    refine ⟨by rw [hrun], by rw [hrun], by rw [hrun], ?_⟩
    refine ⟨mergeRecord r (memberSuccessUpdate t2 0 (some t1)) tEnd, by rw [hrun]; exact h3,
      rfl, ?_⟩
    have hml : (mergeRecord r (memberSuccessUpdate t2 0 (some t1)) tEnd).last_sync_at
        = if t2 = "" then r.last_sync_at else some t2 := rfl
    rw [hml, if_neg ht2]
  · intro rC hrC hlsC ht1 ht2
    have hlsd : checkpointLastSync store "Cases" = some t1 := by
      simp only [checkpointLastSync, hrC, hlsC, truthyStr]
      simp [ht1]
    have hfetch := (serverFetch_empty src t1 (fun _ => true) hsrc).1
    obtain ⟨l', h1, _, h3, _⟩ :=
      (updateList_spec "Cases" (caseSuccessUpdate t2 0 (some t1)) t2
        store.sync_records).2 rC hrC
    have hupd : updateSyncRecord store "Cases" (caseSuccessUpdate t2 0 (some t1)) t2
        = .ok (⟨l'⟩, mergeRecord rC (caseSuccessUpdate t2 0 (some t1)) t2) := by
      simp [updateSyncRecord, h1]
    have hrun : runCases store src (.ok ()) (.ok ()) mapping now today t2 tEnd
        = ⟨⟨l'⟩, .ok (), [], []⟩ := by
      unfold runCases
      simp only [hlsd, hfetch, List.isEmpty_nil, List.length_nil, if_true, hupd]
    refine ⟨by rw [hrun], by rw [hrun], by rw [hrun], ?_⟩
    refine ⟨mergeRecord rC (caseSuccessUpdate t2 0 (some t1)) t2, by rw [hrun]; exact h3,
      rfl, ?_⟩
    have hml : (mergeRecord rC (caseSuccessUpdate t2 0 (some t1)) t2).last_sync_at
        = if t2 = "" then rC.last_sync_at else some t2 := rfl
    rw [hml, if_neg ht2]
  · intro rA hrA hlsA
    have hfetch := (serverFetch_empty src t1 (fun _ => true) hsrc).2
    have hrun : runAuditor store src (.ok ()) (.ok ()) mapping now today t2
        = ⟨store, .ok (), [], []⟩ := by
      unfold runAuditor
      simp only [hrA, hlsA, hfetch, List.isEmpty_nil, if_true]
    exact ⟨by rw [hrun], by rw [hrun], by rw [hrun], by rw [hrun]⟩

/-- The Auditors checkpoint for the C3 counterexample. -/
def c3Record : SyncRecord :=
  ⟨"Auditors", "sugarcrm_auditors", "inbound", none, some "2025-09-01T00:00:00Z",
   "2025-09-01T00:00:00Z", "completed", none⟩

/-- The store for the C3 counterexample and witness (it also holds Members
and Cases checkpoints with the same high-water mark). -/
def c3Store : SyncStore :=
  ⟨[⟨"Members", "sugarcrm_members2", "inbound", none, some "2025-09-01T00:00:00Z",
     "2025-09-01T00:00:00Z", "success", none⟩,
    ⟨"Cases", "sugarcrm_cases2", "inbound", none, some "2025-09-01T00:00:00Z",
     "2025-09-01T00:00:00Z", "success", none⟩, c3Record]⟩

/-- A minimal Auditors field mapping. -/
def auditMapping : Mapping := ⟨[("id", ⟨"sugarcrm_id", false, "direct"⟩)], none, none, none⟩

/-- The second Auditor run, at 2025-09-02, with the source unchanged
(empty). -/
def c3Run : TaskRun (List AuditorProcessed) :=
  runAuditor c3Store [] (.ok ()) (.ok ()) auditMapping "t" "d" "2025-09-02T00:00:00Z"

/-- C3, counterexample.  The claim says the second run "still commits the
checkpoint with last_sync_at re-stamped to the new run time".  The Auditor
task fetches zero records, performs no push — and returns early without any
checkpoint update: `last_sync_at` stays at 2025-09-01 instead of the new
run time 2025-09-02. -/
theorem runAuditor_c3_counterexample :
    c3Run.fetched = []
    ∧ c3Run.pushedBatches = []
    ∧ c3Run.outcome = .ok ()
    ∧ c3Run.store = c3Store
    ∧ (getSyncRecord c3Run.store "Auditors").map SyncRecord.last_sync_at
        = some (some "2025-09-01T00:00:00Z")
    ∧ ¬ ((getSyncRecord c3Run.store "Auditors").map SyncRecord.last_sync_at
        = some (some "2025-09-02T00:00:00Z")) := by
  refine ⟨by decide, by decide, by decide, by decide, by decide, by decide⟩

/-- Witness for the amended C3 theorem at the concrete three-checkpoint
store with an unchanged (empty) source. -/
theorem second_run_zero_fetch_amended_witness :
    ((runMembers c3Store [] (.ok ()) auditMapping "t" "d" "2025-09-02T00:00:00Z"
        "2025-09-02T00:00:01Z").fetched = []
      ∧ (runMembers c3Store [] (.ok ()) auditMapping "t" "d" "2025-09-02T00:00:00Z"
          "2025-09-02T00:00:01Z").pushedBatches = []
      ∧ (runMembers c3Store [] (.ok ()) auditMapping "t" "d" "2025-09-02T00:00:00Z"
          "2025-09-02T00:00:01Z").outcome = .ok ()
      ∧ ∃ r', getSyncRecord (runMembers c3Store [] (.ok ()) auditMapping "t" "d"
            "2025-09-02T00:00:00Z" "2025-09-02T00:00:01Z").store "Members" = some r'
          ∧ r'.status = "success" ∧ r'.last_sync_at = some "2025-09-02T00:00:00Z")
    ∧ ((runCases c3Store [] (.ok ()) (.ok ()) auditMapping "t" "d" "2025-09-02T00:00:00Z"
          "2025-09-02T00:00:01Z").fetched = []
      ∧ (runCases c3Store [] (.ok ()) (.ok ()) auditMapping "t" "d" "2025-09-02T00:00:00Z"
          "2025-09-02T00:00:01Z").pushedBatches = []
      ∧ (runCases c3Store [] (.ok ()) (.ok ()) auditMapping "t" "d" "2025-09-02T00:00:00Z"
          "2025-09-02T00:00:01Z").outcome = .ok ()
      ∧ ∃ r', getSyncRecord (runCases c3Store [] (.ok ()) (.ok ()) auditMapping "t" "d"
            "2025-09-02T00:00:00Z" "2025-09-02T00:00:01Z").store "Cases" = some r'
          ∧ r'.status = "success" ∧ r'.last_sync_at = some "2025-09-02T00:00:00Z")
    ∧ ((runAuditor c3Store [] (.ok ()) (.ok ()) auditMapping "t" "d"
          "2025-09-02T00:00:00Z").fetched = []
      ∧ (runAuditor c3Store [] (.ok ()) (.ok ()) auditMapping "t" "d"
          "2025-09-02T00:00:00Z").pushedBatches = []
      ∧ (runAuditor c3Store [] (.ok ()) (.ok ()) auditMapping "t" "d"
          "2025-09-02T00:00:00Z").outcome = .ok ()
      ∧ (runAuditor c3Store [] (.ok ()) (.ok ()) auditMapping "t" "d"
          "2025-09-02T00:00:00Z").store = c3Store) :=
  ⟨(second_run_zero_fetch_amended c3Store [] auditMapping "t" "d" "2025-09-01T00:00:00Z"
      "2025-09-02T00:00:00Z" "2025-09-02T00:00:01Z"
      (fun recd hm => absurd hm (by simp))).1
    ⟨"Members", "sugarcrm_members2", "inbound", none, some "2025-09-01T00:00:00Z",
     "2025-09-01T00:00:00Z", "success", none⟩
    (by decide) (by decide) (by decide) (by decide),
   (second_run_zero_fetch_amended c3Store [] auditMapping "t" "d" "2025-09-01T00:00:00Z"
      "2025-09-02T00:00:00Z" "2025-09-02T00:00:01Z"
      (fun recd hm => absurd hm (by simp))).2.1
    ⟨"Cases", "sugarcrm_cases2", "inbound", none, some "2025-09-01T00:00:00Z",
     "2025-09-01T00:00:00Z", "success", none⟩
    (by decide) (by decide) (by decide) (by decide),
   (second_run_zero_fetch_amended c3Store [] auditMapping "t" "d" "2025-09-01T00:00:00Z"
      "2025-09-02T00:00:00Z" "2025-09-02T00:00:01Z"
      (fun recd hm => absurd hm (by simp))).2.2
    c3Record (by decide) (by decide)⟩

/-! ### C6: the paginated fetcher -/

/-- One page returned by `sugarCRMPost`: the records plus the upstream
pagination markers (`has_more`, `next_offset`). -/
structure PageData where
  records : List JRecord
  has_more : Bool
  next_offset : Int
deriving DecidableEq

/-- The result of `fetchAllRecords`, instrumented for specification: besides
the accumulated `records` and `total_fetched` of the source, `calls` logs
the records handed to each `onPage` callback invocation, `visited` the
offset of each page request, and `warned` whether the 10,000-record circuit
breaker fired. -/
structure FetchResult where
  records : List JRecord
  total_fetched : Nat
  calls : List (List JRecord)
  visited : List Int
  warned : Bool
deriving DecidableEq

/-- The `while (hasMore)` loop of `fetchAllRecords` (sugarCRM.js lines
184-227), with the page request (`sugarCRMPost`) modelled by the oracle
`api : offset → response` and termination forced by `fuel` (`none` = the
loop did not finish within `fuel` iterations).  A page error is re-thrown
and aborts the whole fetch; the warning break fires after appending a page
once more than 10,000 records have accumulated. -/
def fetchGo (api : Int → Except String PageData) :
    Nat → Int → List JRecord → Nat → List (List JRecord) → List Int →
    Option (Except String FetchResult)
  | 0, _, _, _, _, _ => none
  | fuel + 1, offset, allRecords, totalFetched, calls, visited =>
    match api offset with
    | .error e => some (.error e)
    | .ok page =>
      let allRecords' := allRecords ++ page.records
      let totalFetched' := totalFetched + page.records.length
      let calls' := calls ++ [page.records]
      let visited' := visited ++ [offset]
      if 10000 < totalFetched' then
        some (.ok ⟨allRecords', totalFetched', calls', visited', true⟩)
      else if page.has_more then
        fetchGo api fuel page.next_offset allRecords' totalFetched' calls' visited'
      else
        some (.ok ⟨allRecords', totalFetched', calls', visited', false⟩)

/-- `fetchAllRecords(config, onPage)`: the loop starts with
`offset = 0`, empty accumulators and `totalFetched = 0`. -/
def fetchAllRecords (api : Int → Except String PageData) (fuel : Nat) :
    Option (Except String FetchResult) :=
  fetchGo api fuel 0 [] 0 [] []

/-- Two consecutive page requests: the earlier one succeeded, declared more
data, and supplied the next offset. -/
def fetchStep (api : Int → Except String PageData) (o o' : Int) : Prop :=
  ∃ p, api o = .ok p ∧ p.has_more = true ∧ p.next_offset = o'

theorem snoc_index_inv (api : Int → Except String PageData)
    (calls : List (List JRecord)) (visited : List Int) (page : PageData) (offset : Int)
    (hlen : calls.length = visited.length)
    (hidx : ∀ i o, visited.get? i = some o →
      ∃ p, api o = .ok p ∧ calls.get? i = some p.records)
    (hapi : api offset = .ok page) :
    ∀ i o, (visited ++ [offset]).get? i = some o →
      ∃ p, api o = .ok p ∧ (calls ++ [page.records]).get? i = some p.records := by
  intro i o hio
  rcases lt_trichotomy i visited.length with hi | hi | hi
  · rw [List.get?_append hi] at hio
    obtain ⟨p, hp1, hp2⟩ := hidx i o hio
    refine ⟨p, hp1, ?_⟩
    rw [List.get?_append (hlen ▸ hi)]
    exact hp2
  · subst hi
    rw [List.get?_concat_length] at hio
    injection hio with hio
    subst hio
    refine ⟨page, hapi, ?_⟩
    rw [← hlen, List.get?_concat_length]
  · exfalso
    have : (visited ++ [offset]).get? i = none := by
      rw [List.get?_eq_none]
      simp only [List.length_append, List.length_singleton]
      omega
    rw [this] at hio
    cases hio

theorem chain'_snoc_of_step (api : Int → Except String PageData)
    (l : List Int) (a b : Int) (h : List.Chain' (fetchStep api) (l ++ [a]))
    (hab : fetchStep api a b) : List.Chain' (fetchStep api) ((l ++ [a]) ++ [b]) := by
  rw [List.chain'_append]
  refine ⟨h, List.chain'_singleton b, ?_⟩
  intro x hx y hy
  rw [List.getLast?_concat] at hx
  simp only [List.head?_cons, Option.mem_def, Option.some.injEq] at hx hy
  subst hx
  subst hy
  exact hab

theorem head?_append_left {α : Type} (l l' : List α) (h : l ≠ []) :
    (l ++ l').head? = l.head? := by
  cases l with
  | nil => exact absurd rfl h
  | cons a l => rfl

theorem fetchGo_spec (api : Int → Except String PageData) :
    ∀ (fuel : Nat) (offset : Int) (allRecords : List JRecord) (totalFetched : Nat)
      (calls : List (List JRecord)) (visited : List Int) (res : FetchResult),
      fetchGo api fuel offset allRecords totalFetched calls visited = some (.ok res) →
      allRecords = calls.flatten →
      totalFetched = allRecords.length →
      calls.length = visited.length →
      (∀ i o, visited.get? i = some o →
        ∃ p, api o = .ok p ∧ calls.get? i = some p.records) →
      List.Chain' (fetchStep api) (visited ++ [offset]) →
      (res.records = res.calls.flatten
        ∧ res.total_fetched = res.records.length
        ∧ res.calls.length = res.visited.length
        ∧ (∀ i o, res.visited.get? i = some o →
            ∃ p, api o = .ok p ∧ res.calls.get? i = some p.records)
        ∧ List.Chain' (fetchStep api) res.visited
        ∧ (res.warned = true ↔ 10000 < res.total_fetched)
        ∧ (res.warned = false →
            ∃ o p, res.visited.getLast? = some o ∧ api o = .ok p ∧ p.has_more = false)
        ∧ res.visited.head? = (visited ++ [offset]).head?) := by
  intro fuel
  induction fuel with
  | zero =>
    intro offset allRecords totalFetched calls visited res h
    cases h
  | succ fuel ih =>
    intro offset allRecords totalFetched calls visited res h hflat htot hlen hidx hchain
    rw [fetchGo] at h
    cases hapi : api offset with
    | error e =>
      rw [hapi] at h
      injection h with h
      cases h
    | ok page =>
      rw [hapi] at h
      simp only at h
      have hflat' : allRecords ++ page.records = (calls ++ [page.records]).flatten := by
        rw [List.flatten_append, ← hflat]
        simp
      have htot' : totalFetched + page.records.length
          = (allRecords ++ page.records).length := by
        rw [List.length_append, htot]
      have hlen' : (calls ++ [page.records]).length = (visited ++ [offset]).length := by
        simp [hlen]
      have hidx' := snoc_index_inv api calls visited page offset hlen hidx hapi
      by_cases hbig : 10000 < totalFetched + page.records.length
      · rw [if_pos hbig] at h
        injection h with h
        injection h with h
        subst h
        refine ⟨hflat', htot', hlen', hidx', hchain, ?_, ?_, rfl⟩
        · simpa using hbig
        · intro habs
          cases habs
      · rw [if_neg hbig] at h
        cases hmore : page.has_more with
        | true =>
          rw [hmore, if_pos rfl] at h
          have hchain' : List.Chain' (fetchStep api)
              ((visited ++ [offset]) ++ [page.next_offset]) :=
            chain'_snoc_of_step api visited offset page.next_offset hchain
              ⟨page, hapi, hmore, rfl⟩
          have := ih page.next_offset (allRecords ++ page.records)
            (totalFetched + page.records.length) (calls ++ [page.records])
            (visited ++ [offset]) res h hflat' htot' hlen' hidx' hchain'
          refine ⟨this.1, this.2.1, this.2.2.1, this.2.2.2.1, this.2.2.2.2.1,
            this.2.2.2.2.2.1, this.2.2.2.2.2.2.1, ?_⟩
          rw [this.2.2.2.2.2.2.2]
          exact head?_append_left _ _ (by simp)
        | false =>
          rw [hmore] at h
          simp only [Bool.false_eq_true, if_false] at h
          injection h with h
          injection h with h
          subst h
          refine ⟨hflat', htot', hlen', hidx', hchain, ?_, ?_, rfl⟩
          · constructor
            · intro habs
              cases habs
            · intro habs
              exact absurd habs hbig
          · intro _
            exact ⟨offset, page, List.getLast?_concat _, hapi, hmore⟩

/-- C6 (confirmed).  For every page oracle and every terminating run of the
paginated fetch: the first request is at offset 0; each visited offset was
requested successfully and its page's records are exactly what the per-page
callback received (`calls`); the accumulator is the concatenation of the
callback pages and `total_fetched` counts it; consecutive requests happen
exactly while the previous response's `has_more` was true, the next offset
being the response's `next_offset` (not `offset + pageSize`); the run ends
with a warning — a normal return, not an error — iff strictly more than
10,000 records were fetched, and otherwise the final page had
`has_more = false`. -/
theorem fetchAllRecords_spec (api : Int → Except String PageData) (fuel : Nat)
    (res : FetchResult) (h : fetchAllRecords api fuel = some (.ok res)) :
    res.visited.head? = some 0
    ∧ res.records = res.calls.flatten
    ∧ res.total_fetched = res.records.length
    ∧ res.calls.length = res.visited.length
    ∧ (∀ i o, res.visited.get? i = some o →
        ∃ p, api o = .ok p ∧ res.calls.get? i = some p.records)
    ∧ List.Chain' (fetchStep api) res.visited
    ∧ (res.warned = true ↔ 10000 < res.total_fetched)
    ∧ (res.warned = false →
        ∃ o p, res.visited.getLast? = some o ∧ api o = .ok p ∧ p.has_more = false) := by
  have hs := fetchGo_spec api fuel 0 [] 0 [] [] res h rfl rfl rfl
    (by intro i o hio; cases hio) (by simpa using List.chain'_singleton (0 : Int))
  exact ⟨by rw [hs.2.2.2.2.2.2.2]; rfl, hs.1, hs.2.1, hs.2.2.1, hs.2.2.2.1,
    hs.2.2.2.2.1, hs.2.2.2.2.2.1, hs.2.2.2.2.2.2.1⟩

/-- A one-page oracle for the C6 witness: page at any offset has two
records, no more data. -/
def c6Api (o : Int) : Except String PageData :=
  .ok ⟨[[("id", .jstr (toString o))], [("id", .jstr "x")]], false, -1⟩

/-- The result the fetch produces on `c6Api` with fuel 3. -/
def c6Result : FetchResult :=
  ⟨[[("id", .jstr "0")], [("id", .jstr "x")]], 2,
   [[[("id", .jstr "0")], [("id", .jstr "x")]]], [0], false⟩

/-- Witness for the C6 theorem at a concrete one-page oracle. -/
theorem fetchAllRecords_spec_witness :
    fetchAllRecords c6Api 3 = some (.ok c6Result)
    ∧ (c6Result.visited.head? = some 0
      ∧ c6Result.records = c6Result.calls.flatten
      ∧ c6Result.total_fetched = c6Result.records.length
      ∧ c6Result.calls.length = c6Result.visited.length
      ∧ (∀ i o, c6Result.visited.get? i = some o →
          ∃ p, c6Api o = .ok p ∧ c6Result.calls.get? i = some p.records)
      ∧ List.Chain' (fetchStep c6Api) c6Result.visited
      ∧ (c6Result.warned = true ↔ 10000 < c6Result.total_fetched)
      ∧ (c6Result.warned = false →
          ∃ o p, c6Result.visited.getLast? = some o ∧ c6Api o = .ok p
            ∧ p.has_more = false)) :=
  ⟨by decide, fetchAllRecords_spec c6Api 3 c6Result (by decide)⟩

/-! ### C9: the integration logger -/

/-- The fields a caller passes to `logIntegration` (`none` = key absent; the
destructuring defaults `sugar_id`, `portal_id`, `http_status` and
`internal_status` to `null` when absent). -/
structure LogData where
  log_type : Option JVal
  module_name : Option JVal
  sugar_id : Option JVal
  portal_id : Option JVal
  http_status : Option JVal
  internal_status : Option JVal
  message : Option JVal
deriving DecidableEq

/-- What `database.query` returns — it catches its own errors and reports
them as `{success:false, error}`, never throwing.  `rows` holds the
`RETURNING id, log_date` pairs. -/
structure QueryRes where
  success : Bool
  rows : List (String × String)
  error : Option String
deriving DecidableEq

/-- What `logIntegration` returns. -/
structure IntegrationLogResult where
  success : Bool
  logId : Option String
  logDate : Option String
  message : Option String
  error : Option String
deriving DecidableEq

/-- A character of `[0-9a-f]` with the `i` flag, i.e. `[0-9a-fA-F]`. -/
def isHexChar (c : Char) : Bool :=
  c.isDigit || ('a' ≤ c && c ≤ 'f') || ('A' ≤ c && c ≤ 'F')

/-- Split a character list on `'-'` (kernel-reducible `splitOn`). -/
def splitOnDash : List Char → List (List Char)
  | [] => [[]]
  | c :: cs =>
    if c = '-' then [] :: splitOnDash cs
    else
      match splitOnDash cs with
      | [] => [[c]]
      | g :: gs => (c :: g) :: gs

/-- `/^[0-9a-f]{8}-[0-9a-f]{4}-[0-9a-f]{4}-[0-9a-f]{4}-[0-9a-f]{12}$/i`:
five hyphen-separated all-hex groups of lengths 8-4-4-4-12. -/
def uuidTest (s : String) : Bool :=
  match splitOnDash s.data with
  | [a, b, c, d, e] =>
    a.length == 8 && b.length == 4 && c.length == 4 && d.length == 4 && e.length == 12
      && (a ++ b ++ c ++ d ++ e).all isHexChar
  | _ => false

/-- `formatForUUID` (integrationLogger.js lines 58-67): falsy values and
values that do not look like UUIDs become `null`. -/
def formatForUUID (value : JVal) : JVal :=
  if value.truthy then
    if uuidTest value.toStr then value else .jnull
  else .jnull

/-- The 7-element parameter array bound into the INSERT (lines 69-77);
positions 2 and 3 are the UUID-normalised `sugar_id` and `portal_id`. -/
def logParams (ld : LogData) : List JVal :=
  [ld.log_type.getD .jundef, ld.module_name.getD .jundef,
   formatForUUID (ld.sugar_id.getD .jnull), formatForUUID (ld.portal_id.getD .jnull),
   ld.http_status.getD .jnull, ld.internal_status.getD .jnull, ld.message.getD .jundef]

/-- JS `x || 'default'` on an optional string. -/
def jsOrStr (o : Option String) (dflt : String) : String :=
  match o with
  | some s => if s = "" then dflt else s
  | none => dflt

/-- `logIntegration(logData)` (integrationLogger.js lines 21-122) with the
database modelled by the oracle `db : params → result`.  The function is
total: the required-fields failure returns `{success:false, error}` before
any database call, and the `throw` on a write failure is caught by the
function's own `catch`, which also returns `{success:false, error}` — no
error reaches the caller. -/
def logIntegration (ld : LogData) (db : List JVal → QueryRes) : IntegrationLogResult :=
  if !(truthyOpt ld.log_type) || !(truthyOpt ld.module_name) || !(truthyOpt ld.message) then
    ⟨false, none, none, none,
     some "Missing required fields: log_type, module_name, and message are required"⟩
  else
    let result := db (logParams ld)
    if result.success && !result.rows.isEmpty then
      match result.rows with
      | row :: _ =>
        ⟨true, some row.1, some row.2, some "Integration log saved successfully", none⟩
      | [] => ⟨false, none, none, none, some "Failed to insert integration log"⟩
    else
      ⟨false, none, none, none,
       some (jsOrStr result.error "Failed to insert integration log")⟩

/-- C9 (confirmed).  `logIntegration`: a missing/falsy `log_type`,
`module_name` or `message` yields `{success:false, error}` without any
database call; a supplied identifier that does not match the UUID shape is
bound as `null` (positions 2/3 of the parameter array) rather than
rejected — the insert still succeeds when the database does; and a database
write failure (unsuccessful result or no returned row) is reported as
`{success:false, error}` to the caller.  The embedded function is total, so
no case raises. -/
theorem logIntegration_spec (ld : LogData) (db : List JVal → QueryRes) :
    ((truthyOpt ld.log_type = false ∨ truthyOpt ld.module_name = false
        ∨ truthyOpt ld.message = false) →
      logIntegration ld db
        = ⟨false, none, none, none,
           some "Missing required fields: log_type, module_name, and message are required"⟩)
    ∧ (∀ v, ld.sugar_id = some v → uuidTest v.toStr = false →
        (logParams ld).get? 2 = some .jnull)
    ∧ (∀ v, ld.portal_id = some v → uuidTest v.toStr = false →
        (logParams ld).get? 3 = some .jnull)
    ∧ (truthyOpt ld.log_type = true → truthyOpt ld.module_name = true →
        truthyOpt ld.message = true →
        ((db (logParams ld)).success = false ∨ (db (logParams ld)).rows = []) →
        (logIntegration ld db).success = false
        ∧ (logIntegration ld db).error.isSome = true)
    ∧ (truthyOpt ld.log_type = true → truthyOpt ld.module_name = true →
        truthyOpt ld.message = true →
        ∀ row rest, (db (logParams ld)).success = true →
          (db (logParams ld)).rows = row :: rest →
          (logIntegration ld db).success = true) := by
  refine ⟨?_, ?_, ?_, ?_, ?_⟩
  · intro h
    rcases h with h | h | h <;> simp [logIntegration, h]
  · intro v hv huuid
    simp only [logParams, hv, Option.getD_some]
    by_cases ht : v.truthy = true <;> simp [formatForUUID, ht, huuid]
  · intro v hv huuid
    simp only [logParams, hv, Option.getD_some]
    by_cases ht : v.truthy = true <;> simp [formatForUUID, ht, huuid]
  · intro h1 h2 h3 hdb
    have hcond : (!(truthyOpt ld.log_type) || !(truthyOpt ld.module_name)
        || !(truthyOpt ld.message)) = false := by
      rw [h1, h2, h3]
      rfl
    rcases hdb with h | h <;> exact ⟨by simp [logIntegration, hcond, h],
      by simp [logIntegration, hcond, h]⟩
  · intro h1 h2 h3 row rest hs hrows
    have hcond : (!(truthyOpt ld.log_type) || !(truthyOpt ld.module_name)
        || !(truthyOpt ld.message)) = false := by
      rw [h1, h2, h3]
      rfl
    simp [logIntegration, hcond, hs, hrows]

/-- Concrete log data for the C9 witness: all required fields present, a
malformed `sugar_id`. -/
def c9Ld : LogData :=
  ⟨some (.jstr "Info"), some (.jstr "Accounts"), some (.jstr "not-a-uuid"), none,
   some (.jnum 200), some (.jstr "Success"), some (.jstr "record synced")⟩

/-- A database oracle that accepts the insert. -/
def c9DbOk : List JVal → QueryRes := fun _ => ⟨true, [("17", "2025-09-01T00:00:00Z")], none⟩

/-- A database oracle whose insert fails. -/
def c9DbFail : List JVal → QueryRes := fun _ => ⟨false, [], some "connection refused"⟩

/-- Witness for the C9 theorem: the malformed identifier is bound as null,
the write still succeeds on a healthy database, and a write failure is
returned (not raised). -/
theorem logIntegration_spec_witness :
    uuidTest (JVal.jstr "not-a-uuid").toStr = false
    ∧ (logParams c9Ld).get? 2 = some .jnull
    ∧ (logIntegration c9Ld c9DbOk).success = true
    ∧ ((logIntegration c9Ld c9DbFail).success = false
        ∧ (logIntegration c9Ld c9DbFail).error.isSome = true) :=
  ⟨by decide,
   (logIntegration_spec c9Ld c9DbOk).2.1 (.jstr "not-a-uuid") (by decide) (by decide),
   (logIntegration_spec c9Ld c9DbOk).2.2.2.2 (by decide) (by decide) (by decide)
    ("17", "2025-09-01T00:00:00Z") [] (by decide) (by decide),
   (logIntegration_spec c9Ld c9DbFail).2.2.2.1 (by decide) (by decide) (by decide)
    (Or.inl (by decide))⟩
